import Mathlib

/-!
Verification of the Excel report reconciliation engine
(`excel_parser.py`, `report_comparator.py`, `comparison_models.py`)
as a shallow embedding in Lean.

Conventions of the embedding:
* Python `float` values are modelled as exact rationals (`ℚ`);
  the engine only ever compares, adds and divides them.
* Python dictionaries are modelled as association lists that keep
  insertion order; assigning to an existing key updates it in place,
  mirroring CPython's ordered dicts (`aset` / `alookup`).
* Cell values are the tagged variant `Value` (number / string / null),
  the shape produced by the extractor and consumed by the comparator.
-/

set_option maxRecDepth 10000

namespace FragTest

/-- Association-list lookup: first binding for the key, like `dict[k]`. -/
def alookup {κ ν : Type} [DecidableEq κ] : List (κ × ν) → κ → Option ν
  | [], _ => none
  | (k, v) :: t, k' => if k = k' then some v else alookup t k'

/-- Association-list assignment, like `dict[k] = v`: update the existing
binding in place (keeping its position, as CPython dicts do) or append. -/
def aset {κ ν : Type} [DecidableEq κ] : List (κ × ν) → κ → ν → List (κ × ν)
  | [], k, v => [(k, v)]
  | (k', v') :: t, k, v => if k' = k then (k, v) :: t else (k', v') :: aset t k v

theorem alookup_aset_self {κ ν : Type} [DecidableEq κ] (m : List (κ × ν)) (k : κ) (v : ν) :
    alookup (aset m k v) k = some v := by
  induction m with
  | nil => simp [aset, alookup]
  | cons h t ih =>
    obtain ⟨k', v'⟩ := h
    by_cases hk : k' = k <;> simp [aset, alookup, hk, ih]

theorem alookup_aset_ne {κ ν : Type} [DecidableEq κ] (m : List (κ × ν)) (k k' : κ) (v : ν)
    (h : k ≠ k') : alookup (aset m k v) k' = alookup m k' := by
  induction m with
  | nil => simp [aset, alookup, h]
  | cons hd t ih =>
    obtain ⟨k₀, v₀⟩ := hd
    by_cases hk : k₀ = k
    · subst hk; simp [aset, alookup, h]
    · simp only [aset, if_neg hk, alookup]
      by_cases hk' : k₀ = k' <;> simp [hk', ih]

/-! ## String primitives

Python string operations used by the engine, modelled over `List Char`
(ASCII behaviour; the repository's keyword catalogs and data are ASCII). -/

/-- `needle` occurs at the start of `hay` (`str.startswith`). -/
def charsStartWith : List Char → List Char → Bool
  | _, [] => true
  | [], _ :: _ => false
  | c :: cs, d :: ds => c = d && charsStartWith cs ds

/-- `needle` occurs somewhere in `hay` (Python's `needle in hay`). -/
def charsContain : List Char → List Char → Bool
  | [], needle => needle.isEmpty
  | c :: cs, needle => charsStartWith (c :: cs) needle || charsContain cs needle

/-- Python `needle in hay` on strings. -/
def strContains (hay needle : String) : Bool :=
  charsContain hay.data needle.data

/-- Python `str.lower()` (ASCII). -/
def pyLower (s : String) : String :=
  String.mk (s.data.map Char.toLower)

/-- Python `str.strip()`: remove leading/trailing whitespace. -/
def pyStrip (s : String) : String :=
  String.mk (((s.data.dropWhile Char.isWhitespace).reverse.dropWhile Char.isWhitespace).reverse)

/-- Python `str.replace(c, d)` for single characters. -/
def strReplaceChar (s : String) (c d : Char) : String :=
  String.mk (s.data.map (fun x => if x = c then d else x))

/-- Python `str.replace(c, '')` for a single character. -/
def strRemoveChar (s : String) (c : Char) : String :=
  String.mk (s.data.filter (fun x => x ≠ c))

/-- Python `str.endswith(c)` for a single character. -/
def strEndsWithChar (s : String) (c : Char) : Bool :=
  match s.data.getLast? with
  | some d => d = c
  | none => false

/-- Python `str.startswith(c)` for a single character. -/
def strStartsWithChar (s : String) (c : Char) : Bool :=
  match s.data.head? with
  | some d => d = c
  | none => false

/-- Python `s[:-1]`: drop the last character. -/
def strDropLast (s : String) : String := String.mk s.data.dropLast

/-- Python `s[1:-1]`: drop first and last characters. -/
def strInner (s : String) : String := String.mk s.data.tail.dropLast

/-- Python `str.isdigit()` (ASCII digits). -/
def pyIsDigit (s : String) : Bool :=
  !s.data.isEmpty && s.data.all Char.isDigit

/-- Numeric value of a digit list (most significant first). -/
def digitsVal (l : List Char) : Nat :=
  l.foldl (fun n c => n * 10 + (c.toNat - '0'.toNat)) 0

/-- Model of CPython `float(s)` restricted to decimal notation with an
optional sign, fraction and exponent.  `float()` forms not used by the
repository's data (`inf`, `nan`, underscores, hex) are not modelled.
Returns the exact rational value (floats are modelled as rationals). -/
def pyFloat? (s : String) : Option ℚ :=
  let l := (pyStrip s).data
  let (sign, l) : ℚ × List Char :=
    match l with
    | '-' :: t => (-1, t)
    | '+' :: t => (1, t)
    | _ => (1, l)
  let intDigits := l.takeWhile Char.isDigit
  let rest := l.dropWhile Char.isDigit
  let parseExp : List Char → ℚ → Option ℚ := fun l2 mag =>
    match l2 with
    | [] => some (sign * mag)
    | 'e' :: t | 'E' :: t =>
      let (esign, t) : Bool × List Char :=
        match t with
        | '-' :: t' => (true, t')
        | '+' :: t' => (false, t')
        | _ => (false, t)
      if t.isEmpty || !t.all Char.isDigit then none
      else some (sign * mag * (if esign then ((10 : ℚ) ^ digitsVal t)⁻¹ else (10 : ℚ) ^ digitsVal t))
    | _ => none
  match rest with
  | '.' :: t =>
    let fracDs := t.takeWhile Char.isDigit
    let rest2 := t.dropWhile Char.isDigit
    if intDigits.isEmpty && fracDs.isEmpty then none
    else parseExp rest2 ((digitsVal intDigits : ℚ) + (digitsVal fracDs : ℚ) / (10 : ℚ) ^ fracDs.length)
  | _ =>
    if intDigits.isEmpty then none
    else parseExp rest (digitsVal intDigits : ℚ)

/-- Fractional decimal digits of `q ∈ [0, 1)`, up to `fuel` digits. -/
def fracDigits : ℚ → Nat → List Char
  | _, 0 => []
  | q, fuel + 1 =>
    if q = 0 then []
    else
      let q10 := q * 10
      Char.ofNat ('0'.toNat + q10.floor.toNat) :: fracDigits (q10 - q10.floor) fuel

/-- Model of CPython `str(f)` for a float `f`: sign, integer part, `'.'`,
fractional digits (at least one, `"0"` if the value is integral).
Exponent notation for very large/small magnitudes is not modelled; the
engine only ever formats values for which this plain form is what CPython
prints. -/
def floatRepr (q : ℚ) : String :=
  let sign := if q < 0 then "-" else ""
  let a := |q|
  let ds := fracDigits (a - a.floor) 17
  sign ++ toString a.floor.toNat ++ "." ++ (if ds.isEmpty then "0" else String.mk ds)

/-! ## Cell values

Loosely-typed Python cell values as an explicit tagged variant:
a number (Python `int`/`float`, modelled as `ℚ`), a string, or `None`. -/

inductive Value : Type where
  | num (q : ℚ)
  | str (s : String)
  | null
  deriving DecidableEq

/-- Python truthiness of a cell value (`if not cell_value`). -/
def pyFalsy : Value → Bool
  | .null => true
  | .str s => s.data.isEmpty
  | .num q => q = 0

/-- Python `str(v)` of a cell value (`str(None) = "None"`). -/
def pyStr : Value → String
  | .null => "None"
  | .str s => s
  | .num q => floatRepr q

/-- Model of CPython's (per-process randomised) string hash as a fixed
deterministic polynomial hash.  The engine only relies on distinct
strings generally hashing apart; no claim depends on particular values. -/
def pyHash (s : String) : Nat :=
  s.data.foldl (fun h c => (h * 1000003 + c.toNat) % (2 ^ 61 - 1)) 5381

/-- Python `repr` of a cell value, used for `str(row_data)`. -/
def pyReprValue : Value → String
  | .null => "None"
  | .str s => "'" ++ s ++ "'"
  | .num q => floatRepr q

/-- A record: field name → value, an insertion-ordered Python dict. -/
abbrev Record : Type := List (String × Value)

/-- Python `str(row_data)` of a record dict
(`\x7b'field': value, ...\x7d`). -/
def recordRepr (r : Record) : String :=
  "\x7b" ++ ", ".intercalate (r.map (fun fv => "'" ++ fv.1 ++ "': " ++ pyReprValue fv.2)) ++ "\x7d"

/-! ## Data model (`comparison_models.py`) -/

/-- `ValidationStatus` enumeration. -/
inductive ValidationStatus : Type where
  | MATCH | MISMATCH | MISSING_IN_SOURCE | MISSING_IN_DEST
  | CALCULATION_ERROR | STRUCTURAL_ERROR
  deriving DecidableEq

/-- `SeverityLevel` enumeration. -/
inductive SeverityLevel : Type where
  | CRITICAL | HIGH | MEDIUM | LOW
  deriving DecidableEq

/-- `ComparisonResult`: outcome for one `(key, section, field)` triple.
The Python field `section` is called `sectionName` here (`section` is a
Lean keyword); `difference` is `Optional[Union[str, float]]`, modelled as
`Option Value` where a `.num` is the numeric case (`Value.null` unused). -/
structure ComparisonResult : Type where
  key : String
  sectionName : String
  field : String
  source_value : Value
  dest_value : Value
  status : ValidationStatus
  severity : SeverityLevel
  difference : Option Value := none
  notes : Option String := none
  deriving DecidableEq

/-- `CalculationValidation` result. -/
structure CalculationValidation : Type where
  field : String
  expected_value : ℚ
  actual_value : ℚ
  difference : ℚ
  percentage_error : ℚ
  status : ValidationStatus
  formula_used : Option String := none
  deriving DecidableEq

/-- `ValidationSummary`: overall aggregation of a result list. -/
structure ValidationSummary : Type where
  total_records_compared : Nat
  total_fields_compared : Nat
  total_matches : Nat
  total_mismatches : Nat
  total_missing_in_source : Nat
  total_missing_in_dest : Nat
  overall_match_percentage : ℚ
  critical_issues : Nat
  high_issues : Nat
  medium_issues : Nat
  low_issues : Nat
  has_calculation_errors : Bool
  has_structural_errors : Bool
  deriving DecidableEq

/-- `ParsedExcelData`: sections → records, per-section headers, record
count and non-fatal parse errors.  The `metadata` dict (file path,
worksheet title, timestamp) is outside the embedding: no claim and no
engine code path reads it back. -/
structure ParsedExcelData : Type where
  sections : List (String × List Record) := []
  headers : List (String × List (Nat × String)) := []
  total_records : Nat := 0
  parsing_errors : List String := []
  deriving DecidableEq

/-- The fixed keys of `ValidationConfig.severity_thresholds`
(the Python `Dict[str, float]` built by its `default_factory`,
modelled as a record of the three keys the engine constructs and reads). -/
structure SeverityThresholds : Type where
  critical_percentage_error : ℚ := 10
  high_value_threshold : ℚ := 1000
  medium_percentage_error : ℚ := 1
  deriving DecidableEq

/-- `ValidationConfig` (fields the engine reads). -/
structure ValidationConfig : Type where
  precision : ℚ := 1 / 100
  enable_calculation_validation : Bool := true
  enable_structure_validation : Bool := true
  severity_thresholds : SeverityThresholds := {}
  deriving DecidableEq

/-- `determine_severity` (`comparison_models.py`), translated from the
code's `if` chain. -/
def determine_severity (comparison_result : ComparisonResult) (config : ValidationConfig) :
    SeverityLevel :=
  if comparison_result.status = .CALCULATION_ERROR then .CRITICAL
  else if comparison_result.status = .MISSING_IN_SOURCE ∨
          comparison_result.status = .MISSING_IN_DEST then .HIGH
  else if comparison_result.status = .MISMATCH then
    match comparison_result.difference with
    | some (.num d) =>
      if |d| > config.severity_thresholds.high_value_threshold then .CRITICAL
      else if |d| > config.severity_thresholds.medium_percentage_error then .HIGH
      else .MEDIUM
    | _ => .MEDIUM
  else .LOW

/-! ## Numerical comparator (`report_comparator.py`) -/

/-- `NumericalComparator._to_number`: coerce a value to a number.
Numbers pass through; strings: a trailing `%` is stripped; a
parenthesised body has its commas removed, is parsed and negated;
otherwise commas are removed and the string parsed; `None` fails. -/
def to_number : Value → Option ℚ
  | .null => none
  | .num q => some q
  | .str value =>
    if strEndsWithChar (pyStrip value) '%' then
      pyFloat? (strDropLast (pyStrip value))
    else if strStartsWithChar (pyStrip value) '(' && strEndsWithChar (pyStrip value) ')' then
      (pyFloat? (strRemoveChar (strInner (pyStrip value)) ',')).map (fun q => -q)
    else
      pyFloat? (strRemoveChar value ',')

/-- `NumericalComparator.compare_numbers`: numeric comparison within
`precision` when both sides coerce, else exact string equality with a
`None` difference. -/
def compare_numbers (precision : ℚ) (source_val dest_val : Value) : Bool × Option ℚ :=
  match to_number source_val, to_number dest_val with
  | some source_num, some dest_num =>
    (decide (|source_num - dest_num| ≤ precision), some (source_num - dest_num))
  | _, _ => (decide (pyStr source_val = pyStr dest_val), none)

/-! ## Composite keys (`excel_parser.py`, `ExcelDataExtractor`) -/

/-- Python `sep.join(parts)`. -/
def pyJoin (sep : String) : List String → String
  | [] => ""
  | [p] => p
  | p :: q :: rest => p ++ sep ++ pyJoin sep (q :: rest)

/-- One step of `_create_composite_key`'s loop over `row_data.items()`:
falsy values are skipped; the last field whose lowered name contains
`region` / `supervis` / `area` wins its slot. -/
def identStep (acc : String × String × String) (fv : String × Value) : String × String × String :=
  if pyFalsy fv.2 then acc
  else
    let field_lower := pyLower fv.1
    let value_str := pyStrip (pyStr fv.2)
    if strContains field_lower "region" then (value_str, acc.2.1, acc.2.2)
    else if strContains field_lower "supervis" then (acc.1, value_str, acc.2.2)
    else if strContains field_lower "area" then (acc.1, acc.2.1, value_str)
    else acc

/-- The `(region, supervisor, area)` triple accumulated by
`_create_composite_key`'s loop. -/
def identTriple (row_data : Record) : String × String × String :=
  row_data.foldl identStep ("", "", "")

/-- The joined key text of `_create_composite_key`:
`"_".join([part for part in key_parts if part]).replace(" ", "_")`. -/
def key_from_triple (t : String × String × String) : String :=
  strReplaceChar (pyJoin "_" ([t.1, t.2.1, t.2.2].filter (fun p => !p.data.isEmpty))) ' ' '_'

/-- `_create_composite_key`: identifying fields joined with `_`, spaces
replaced by `_`; content-hash fallback when all three slots are empty. -/
def create_composite_key (row_data : Record) : String :=
  let composite_key := key_from_triple (identTriple row_data)
  if !composite_key.data.isEmpty then composite_key
  else "row_" ++ toString (pyHash (recordRepr row_data))

/-! ## Structural validator (`report_comparator.py`) -/

/-- `StructuralValidator.validate_sections`: one result per section
present in exactly one document.  Python iterates the set differences;
set order is unspecified, modelled as source-list order. -/
def validate_sections (source_data dest_data : ParsedExcelData) : List ComparisonResult :=
  let source_sections := source_data.sections.map Prod.fst
  let dest_sections := dest_data.sections.map Prod.fst
  let missing_in_dest := source_sections.filter (fun s => decide (¬ s ∈ dest_sections))
  let missing_in_source := dest_sections.filter (fun s => decide (¬ s ∈ source_sections))
  missing_in_dest.map (fun sec =>
    { key := "SECTION_" ++ sec
      sectionName := "STRUCTURAL"
      field := "ENTIRE_SECTION"
      source_value := .str "EXISTS"
      dest_value := .str "MISSING"
      status := .MISSING_IN_DEST
      severity := .CRITICAL
      notes := some ("Section '" ++ sec ++ "' exists in source but missing in destination") })
  ++ missing_in_source.map (fun sec =>
    { key := "SECTION_" ++ sec
      sectionName := "STRUCTURAL"
      field := "ENTIRE_SECTION"
      source_value := .str "MISSING"
      dest_value := .str "EXISTS"
      status := .MISSING_IN_SOURCE
      severity := .HIGH
      notes := some ("Section '" ++ sec ++ "' exists in destination but missing in source") })

/-- `StructuralValidator.validate_record_counts`: one MISMATCH result per
common section whose record counts differ. -/
def validate_record_counts (source_data dest_data : ParsedExcelData) : List ComparisonResult :=
  let common := source_data.sections.filter
    (fun s => (alookup dest_data.sections s.1).isSome)
  common.foldr (fun s acc =>
    let source_count := s.2.length
    let dest_count := ((alookup dest_data.sections s.1).getD []).length
    if source_count ≠ dest_count then
      { key := "COUNT_" ++ s.1
        sectionName := s.1
        field := "RECORD_COUNT"
        source_value := .num source_count
        dest_value := .num dest_count
        status := ValidationStatus.MISMATCH
        severity := SeverityLevel.HIGH
        difference := some (.num ((source_count : ℚ) - dest_count))
        notes := some ("Record count mismatch in section '" ++ s.1 ++ "'") } :: acc
    else acc) []

/-! ## Summary generation (`report_comparator.py`) -/

/-- Round-half-to-even on rationals (the tie rule of CPython's `round`). -/
def roundHalfEven (x : ℚ) : ℤ :=
  let f := x.floor
  let r := x - f
  if r < 1 / 2 then f
  else if r > 1 / 2 then f + 1
  else if f % 2 = 0 then f else f + 1

/-- Model of CPython `round(x, 2)`: half-even rounding to two decimal
places (computed on exact rationals; the engine's values make the
binary-float tie cases of the real `round` irrelevant here). -/
def pyRound2 (x : ℚ) : ℚ := (roundHalfEven (x * 100) : ℚ) / 100

/-- `ReportComparator.generate_summary`. -/
def generate_summary (comparison_results : List ComparisonResult)
    (calculation_validations : List CalculationValidation) : ValidationSummary :=
  let matchCount := (comparison_results.filter (fun r => decide (r.status = .MATCH))).length
  let mismatches := (comparison_results.filter (fun r => decide (r.status = .MISMATCH))).length
  let missing_in_source :=
    (comparison_results.filter (fun r => decide (r.status = .MISSING_IN_SOURCE))).length
  let missing_in_dest :=
    (comparison_results.filter (fun r => decide (r.status = .MISSING_IN_DEST))).length
  let critical_issues := (comparison_results.filter (fun r => decide (r.severity = .CRITICAL))).length
  let high_issues := (comparison_results.filter (fun r => decide (r.severity = .HIGH))).length
  let medium_issues := (comparison_results.filter (fun r => decide (r.severity = .MEDIUM))).length
  let low_issues := (comparison_results.filter (fun r => decide (r.severity = .LOW))).length
  let total_comparisons := comparison_results.length
  let match_percentage : ℚ :=
    if total_comparisons > 0 then (matchCount : ℚ) / total_comparisons * 100 else 100
  let has_calculation_errors :=
    calculation_validations.any (fun cv => decide (cv.status = .CALCULATION_ERROR))
  let has_structural_errors := comparison_results.any (fun r =>
    decide (r.status = .STRUCTURAL_ERROR ∨ r.status = .MISSING_IN_SOURCE ∨ r.status = .MISSING_IN_DEST))
  { total_records_compared := total_comparisons
    total_fields_compared := total_comparisons
    total_matches := matchCount
    total_mismatches := mismatches
    total_missing_in_source := missing_in_source
    total_missing_in_dest := missing_in_dest
    overall_match_percentage := pyRound2 match_percentage
    critical_issues := critical_issues
    high_issues := high_issues
    medium_issues := medium_issues
    low_issues := low_issues
    has_calculation_errors := has_calculation_errors
    has_structural_errors := has_structural_errors }

/-! ## Calculation validator (`report_comparator.py`) -/

/-- The fixed catalog of summable field names. -/
def summable_fields : List String :=
  ["WK Slab", "Day Sale", "Day Slab", "Day Stale",
   "WTD Slab", "WTD Sale", "WTD Stale", "Wk Sale LY"]

/-- The fixed, priority-ordered total-section names. -/
def total_section_names : List String := ["COMBINED", "CENTRAL", "TOTAL"]

/-- Sum a field across all records of the given sections, tracking
whether it was ever present and numeric (`expected_total`, `field_found`). -/
def sum_field (dest_sections : List (String × List Record)) (individual : List String)
    (field : String) : ℚ × Bool :=
  individual.foldl (fun acc sec =>
    ((alookup dest_sections sec).getD []).foldl (fun acc record =>
      match alookup record field with
      | some v =>
        if v ≠ Value.null then
          match to_number v with
          | some field_value => (acc.1 + field_value, true)
          | none => acc
        else acc
      | none => acc) acc) (0, false)

/-- Per-field body of `CalculationValidator.validate_totals`'s loop:
`none` when the field is never present/numeric in the itemized sections,
or absent/`None`/non-numeric on the total record. -/
def field_validation (precision : ℚ) (dest_sections : List (String × List Record))
    (individual : List String) (total_record : Record) (field : String) :
    Option CalculationValidation :=
  if (sum_field dest_sections individual field).2 = false then none
  else
    match alookup total_record field with
    | some v =>
      if v ≠ Value.null then
        match to_number v with
        | some actual_total =>
          some
            { field := field
              expected_value := (sum_field dest_sections individual field).1
              actual_value := actual_total
              difference := (sum_field dest_sections individual field).1 - actual_total
              percentage_error :=
                if (sum_field dest_sections individual field).1 ≠ 0 then
                  |((sum_field dest_sections individual field).1 - actual_total) /
                    (sum_field dest_sections individual field).1 * 100|
                else 0
              status :=
                if |(sum_field dest_sections individual field).1 - actual_total| > precision then
                  .CALCULATION_ERROR
                else .MATCH
              formula_used :=
                some ("Sum of " ++ pyJoin ", " individual ++ " sections") }
        | none => none
      else none
    | none => none

/-- The total section used by `validate_totals`: the first of
`COMBINED`, `CENTRAL`, `TOTAL` present among the destination sections. -/
def total_section_of (dest_data : ParsedExcelData) : Option String :=
  total_section_names.find? (fun n => (alookup dest_data.sections n).isSome)

/-- The itemized (non-total-named) sections of the destination, in
document order. -/
def individual_sections (dest_data : ParsedExcelData) : List String :=
  (dest_data.sections.map Prod.fst).filter (fun s => decide (¬ s ∈ total_section_names))

/-- `CalculationValidator.validate_totals`: reconcile summable fields of
the itemized sections against the first record of the total section.
The `source_data` parameter is, as in the code, never read. -/
def validate_totals (precision : ℚ) (source_data dest_data : ParsedExcelData) :
    List CalculationValidation :=
  match total_section_of dest_data with
  | none => []
  | some total_section =>
    if (individual_sections dest_data).isEmpty then []
    else
      match (alookup dest_data.sections total_section).getD [] with
      | [] => []
      | total_record :: _ =>
        summable_fields.foldl (fun acc field =>
          acc ++ (field_validation precision dest_data.sections (individual_sections dest_data)
                    total_record field).toList) []

/-! ## Grid and structure detection (`excel_parser.py`) -/

/-- A worksheet grid: row/column extents and the effective value of each
cell.  `cell` models `_get_cell_value_safe`'s result: merged-range
members already resolve to their range's top-left value, and lookup
failures already yield `None` (`Value.null`). -/
structure Grid : Type where
  maxRow : Nat
  maxCol : Nat
  cell : Nat → Nat → Value

/-- Rows `1 .. maxRow`, the outer iteration order. -/
def Grid.rowsList (g : Grid) : List Nat := List.range' 1 g.maxRow

/-- Columns `1 .. maxCol`, the inner iteration order. -/
def Grid.colsList (g : Grid) : List Nat := List.range' 1 g.maxCol

/-- `ExcelStructureDetector.section_keywords`, in dict insertion order. -/
def section_keywords : List (String × List String) :=
  [("BQ", ["baqala", "bq", "baQALA"]),
   ("NA", ["national accounts", "na", "national_accounts"]),
   ("COMBINED", ["total", "combined", "central", "summary"])]

/-- `ExcelStructureDetector.header_keywords`. -/
def header_keywords : List String :=
  ["region", "supervisor", "area", "wk slab", "day sale", "day slab",
   "day stale", "stale %", "wtd slab", "wtd sale", "wtd ach%",
   "wtd stale", "stale%", "wk sale ly", "wk grw%", "ytd ly", "ytd ty", "grw%"]

/-- First section type whose keyword set matches the lowered, stripped
cell text (the inner `for section_type, keywords in ...` loop with its
`break`). -/
def first_section_match (cell_text : String) : Option String :=
  section_keywords.findSome? (fun sk =>
    if sk.2.any (fun keyword => strContains cell_text keyword) then some sk.1 else none)

/-- Scan state of `detect_sections`: the accumulating `sections` dict
(value `(start_row, end_row?)`, `none` while the section is open) and the
currently open section. -/
structure DetectState : Type where
  sections : List (String × Nat × Option Nat)
  current : Option String

/-- Effect of one cell on the `detect_sections` scan: a falsy or
non-matching cell is ignored; a keyword cell closes the open section at
`row - 1` and (re)opens the matched section at `row`. -/
def detect_cell (row : Nat) (st : DetectState) (v : Value) : DetectState :=
  if pyFalsy v then st
  else
    match first_section_match (pyStrip (pyLower (pyStr v))) with
    | none => st
    | some section_type =>
      let closed :=
        match st.current with
        | none => st.sections
        | some current_section =>
          match alookup st.sections current_section with
          | some se => aset st.sections current_section (se.1, some (row - 1))
          | none => st.sections
      { sections := aset closed section_type (row, none), current := some section_type }

/-- One row of the `detect_sections` scan (inner column loop). -/
def detect_row (g : Grid) (st : DetectState) (row : Nat) : DetectState :=
  g.colsList.foldl (fun st col => detect_cell row st (g.cell row col)) st

/-- The `detect_sections` row-major scan over the whole grid. -/
def detect_scan (g : Grid) : DetectState :=
  g.rowsList.foldl (detect_row g) ⟨[], none⟩

/-- Closing of the last open section at the grid's final row. -/
def close_last (g : Grid) (st : DetectState) : List (String × Nat × Option Nat) :=
  match st.current with
  | none => st.sections
  | some current_section =>
    match alookup st.sections current_section with
    | some (s, none) => aset st.sections current_section (s, some g.maxRow)
    | _ => st.sections

/-- `ExcelStructureDetector.detect_sections`: the final `sections` dict,
as the insertion-ordered list of `(name, start_row, end_row)`.  (After
the final close every entry is closed; open entries cannot remain.) -/
def detect_sections (g : Grid) : List (String × Nat × Nat) :=
  (close_last g (detect_scan g)).filterMap (fun e => e.2.2.map (fun en => (e.1, e.2.1, en)))

/-- Pass-1 candidate update of `detect_headers`: keep the longer original
text for a column (`len(original_value) > len(header_candidates[col])`). -/
def header_cand_update (cands : List (Nat × String)) (col : Nat) (original_value : String) :
    List (Nat × String) :=
  match alookup cands col with
  | none => aset cands col original_value
  | some cur =>
    if original_value.data.length > cur.data.length then aset cands col original_value else cands

/-- Pass 1 of `detect_headers` for one cell: each matching header keyword
attempts the candidate update (the inner keyword loop has no `break`;
repeats are no-ops of `header_cand_update`). -/
def header_pass1_cell (cands : List (Nat × String)) (col : Nat) (v : Value) :
    List (Nat × String) :=
  if pyFalsy v then cands
  else
    let cell_text := pyStrip (pyLower (pyStr v))
    header_keywords.foldl (fun cs keyword =>
      if strContains cell_text keyword then
        header_cand_update cs col (pyStrip (pyStr v))
      else cs) cands

/-- Pass-2 acceptance test of `detect_headers`: the text with separators,
parentheses, sign and percent removed is not all digits, or contains
`%`, or contains a letter. -/
def header_pass2_test (cell_text : String) : Bool :=
  let cleaned := strRemoveChar (strRemoveChar (strRemoveChar (strRemoveChar (strRemoveChar
    (strRemoveChar cell_text ',') '.') '-') '(') ')') '%'
  !pyIsDigit cleaned || strContains cell_text "%" || cell_text.data.any Char.isAlpha

/-- Pass 2 of `detect_headers` for one cell: a still-unassigned column
whose non-blank text passes `header_pass2_test` becomes a header. -/
def header_pass2_cell (cands : List (Nat × String)) (col : Nat) (v : Value) :
    List (Nat × String) :=
  if (alookup cands col).isSome then cands
  else if pyFalsy v || (pyStrip (pyStr v)).data.isEmpty then cands
  else
    let cell_text := pyStrip (pyStr v)
    if header_pass2_test cell_text then aset cands col cell_text else cands

/-- `ExcelStructureDetector.detect_headers`: two passes over at most the
first 5 rows of the section. -/
def detect_headers (g : Grid) (start_row end_row : Nat) : List (Nat × String) :=
  let search_rows := min 5 (end_row + 1 - start_row)
  let rows := List.range' start_row search_rows
  let pass1 := rows.foldl (fun cs row =>
    g.colsList.foldl (fun cs col => header_pass1_cell cs col (g.cell row col)) cs) []
  rows.foldl (fun cs row =>
    g.colsList.foldl (fun cs col => header_pass2_cell cs col (g.cell row col)) cs) pass1

/-! ## Data extraction (`excel_parser.py`, `ExcelDataExtractor`) -/

/-- `ExcelDataExtractor._is_numeric`: commas and all `-` removed, the
rest parses as a float. -/
def extractor_is_numeric (value : String) : Bool :=
  (pyFloat? (strRemoveChar (strRemoveChar value ',') '-')).isSome

/-- `ExcelDataExtractor._parse_numeric`: commas removed, parsed as a
float; the original string is returned when parsing fails. -/
def extractor_parse_numeric (value : String) : Value :=
  match pyFloat? (strRemoveChar value ',') with
  | some q => .num q
  | none => .str value

/-- `ExcelDataExtractor._get_processed_cell_value`: normalize one cell
into number / percent-text / negative-parenthesis-text / text / null. -/
def processed_cell_value (g : Grid) (row col : Nat) : Value :=
  match g.cell row col with
  | .null => .null
  | raw =>
    let str_value := pyStrip (pyStr raw)
    if str_value.data.isEmpty then .null
    else if extractor_is_numeric str_value then extractor_parse_numeric str_value
    else if strEndsWithChar str_value '%' then
      match pyFloat? (strRemoveChar (strDropLast str_value) ',') with
      | some q => .str (floatRepr q ++ "%")
      | none => .str str_value
    else if strStartsWithChar str_value '(' && strEndsWithChar str_value ')' then
      let inner_value := strInner str_value
      if extractor_is_numeric inner_value then
        .str ("(" ++ pyStr (extractor_parse_numeric inner_value) ++ ")")
      else .str str_value
    else .str str_value

/-- `ExcelDataExtractor._is_data_row`: the row carries a recognised
region/supervisor/area identifier, or any numeric value. -/
def is_data_row (row_data : Record) : Bool :=
  let vals := row_data.foldl (fun acc fv =>
    if pyFalsy fv.2 then acc
    else
      let field_lower := pyLower fv.1
      let value_str := pyStrip (pyStr fv.2)
      if strContains field_lower "region" && !value_str.data.isEmpty then
        (acc.1 ++ [value_str], acc.2.1, acc.2.2)
      else if strContains field_lower "supervis" && !value_str.data.isEmpty then
        (acc.1, acc.2.1 ++ [value_str], acc.2.2)
      else if strContains field_lower "area" && !value_str.data.isEmpty then
        (acc.1, acc.2.1, acc.2.2 ++ [value_str])
      else acc) (([], [], []) : List String × List String × List String)
  let has_identifiers :=
    vals.1.any (fun v => strContains (pyLower v) "central") ||
    vals.2.1.any (fun v => pyLower v ∈ ["michael", "sms", "mic", "s"]) ||
    vals.2.2.any (fun v => pyLower v ∈ ["mgg", "gmg", "mg", "m"])
  let has_numeric_data := row_data.any (fun fv => match fv.2 with | .num _ => true | _ => false)
  has_identifiers || has_numeric_data

/-- `ExcelDataExtractor._clean_row_data`: strip field names, strip string
values (blank becomes `None`). -/
def clean_row_data (row_data : Record) : Record :=
  row_data.foldl (fun acc fv =>
    let clean_field := pyStrip fv.1
    let v : Value :=
      match fv.2 with
      | .null => .null
      | .str s => if (pyStrip s).data.isEmpty then .null else .str (pyStrip s)
      | v => v
    aset acc clean_field v) []

/-- `ExcelDataExtractor.extract_data_rows`: per row, build
field → value over the header columns, keep rows that have meaningful
data and pass `_is_data_row`, attach the composite key, clean. -/
def extract_data_rows (g : Grid) (start_row end_row : Nat) (headers : List (Nat × String)) :
    List Record :=
  (List.range' start_row (end_row + 1 - start_row)).foldl (fun data_rows row =>
    let colVals := headers.map (fun ch => (ch.2, processed_cell_value g row ch.1))
    let row_data := colVals.foldl (fun m fv => aset m fv.1 fv.2) []
    let has_meaningful_data := colVals.any (fun fv =>
      !(fv.2 = Value.null) && !(pyStrip (pyStr fv.2)).data.isEmpty)
    if has_meaningful_data && is_data_row row_data then
      let composite_key := create_composite_key row_data
      data_rows ++ [clean_row_data (aset row_data "composite_key" (.str composite_key))]
    else data_rows) []

/-! ## Document parser (`excel_parser.py`, `ExcelParser.parse_excel_file`) -/

/-- The parse-error message recorded for a section without headers. -/
def no_headers_msg (section_name : String) : String :=
  "No headers detected for section '" ++ section_name ++ "'"

/-- Accumulator of `parse_excel_file`'s per-section loop. -/
structure ParseAcc : Type where
  parsed_sections : List (String × List Record)
  headers_info : List (String × List (Nat × String))
  parsing_errors : List String
  total_records : Nat

/-- One iteration of `parse_excel_file`'s section loop: detect headers;
an empty header map records an error and skips the section (`continue` —
it is not added to `parsed_sections`); otherwise extraction starts a
fixed 3 rows below the section start (an empty range yields an empty
record list).  The Python `except` arm is dead here: the modelled body
cannot raise. -/
def parse_section_step (g : Grid) (acc : ParseAcc) (sec : String × Nat × Nat) : ParseAcc :=
  let section_name := sec.1
  let start_row := sec.2.1
  let end_row := sec.2.2
  let headers := detect_headers g start_row end_row
  let headers_info := aset acc.headers_info section_name headers
  if headers.isEmpty then
    { acc with
      headers_info := headers_info
      parsing_errors := acc.parsing_errors ++ [no_headers_msg section_name] }
  else
    let data_start_row := start_row + 3
    if data_start_row ≤ end_row then
      let data_rows := extract_data_rows g data_start_row end_row headers
      { parsed_sections := aset acc.parsed_sections section_name data_rows
        headers_info := headers_info
        parsing_errors := acc.parsing_errors
        total_records := acc.total_records + data_rows.length }
    else
      { acc with
        parsed_sections := aset acc.parsed_sections section_name []
        headers_info := headers_info }

/-- `ExcelParser.parse_excel_file` on a loaded grid (workbook loading,
the caller's I/O, is outside the engine; the claims concern the parsing
of a loaded grid). -/
def parse_excel_file (g : Grid) : ParsedExcelData :=
  let sections := detect_sections g
  let acc := sections.foldl (parse_section_step g) ⟨[], [], [], 0⟩
  { sections := acc.parsed_sections
    headers := acc.headers_info
    total_records := acc.total_records
    parsing_errors := acc.parsing_errors }

/-! ## Report comparator orchestration (`report_comparator.py`) -/

/-- Lookup key of a record in `_compare_section`'s dict comprehensions:
`record.get('composite_key', f"row_\x7bi\x7d")`.  Keys are Python values
(`Value`); a present-but-`None` composite key is used as-is. -/
def record_key (i : Nat) (record : Record) : Value :=
  (alookup record "composite_key").getD (.str ("row_" ++ toString i))

/-- The key → record dict of one document's section
(later duplicates overwrite earlier ones, as in a dict comprehension). -/
def record_lookup (records : List Record) : List (Value × Record) :=
  records.enum.foldl (fun m ir => aset m (record_key ir.1 ir.2) ir.2) []

/-- `ReportComparator._compare_records`: field-by-field comparison over
the field union minus `composite_key`; only non-matching fields produce
a result.  The field union is iterated in first-occurrence order
(Python set order is unspecified). -/
def compare_records (config : ValidationConfig) (source_record dest_record : Record)
    (key : Value) (sectionName : String) : List ComparisonResult :=
  let sFields := source_record.map Prod.fst
  let dFields := dest_record.map Prod.fst
  let all_fields :=
    ((sFields ++ dFields.filter (fun f => decide (¬ f ∈ sFields))).eraseDups).filter
      (fun f => decide (f ≠ "composite_key"))
  all_fields.foldl (fun results field =>
    let source_value := (alookup source_record field).getD .null
    let dest_value := (alookup dest_record field).getD .null
    let c := compare_numbers config.precision source_value dest_value
    if c.1 then results
    else
      let comparison_result : ComparisonResult :=
        { key := pyStr key
          sectionName := sectionName
          field := field
          source_value := source_value
          dest_value := dest_value
          status := .MISMATCH
          severity := .MEDIUM
          difference := c.2.map .num }
      results ++
        [{ comparison_result with
           severity := determine_severity comparison_result config }]) []

/-- `ReportComparator._compare_section`: key union of the two lookups;
one-sided keys yield ENTIRE_RECORD missing results, two-sided keys are
compared field by field. -/
def compare_section (config : ValidationConfig) (source_section dest_section : List Record)
    (sectionName : String) : List ComparisonResult :=
  let source_lookup := record_lookup source_section
  let dest_lookup := record_lookup dest_section
  let sKeys := source_lookup.map Prod.fst
  let dKeys := dest_lookup.map Prod.fst
  let all_keys := sKeys ++ dKeys.filter (fun k => decide (¬ k ∈ sKeys))
  all_keys.foldl (fun results key =>
    match alookup source_lookup key, alookup dest_lookup key with
    | none, _ =>
      results ++
        [{ key := pyStr key
           sectionName := sectionName
           field := "ENTIRE_RECORD"
           source_value := .str "MISSING"
           dest_value := .str "EXISTS"
           status := .MISSING_IN_SOURCE
           severity := .HIGH
           notes := some "Record exists in destination but missing in source" }]
    | some _, none =>
      results ++
        [{ key := pyStr key
           sectionName := sectionName
           field := "ENTIRE_RECORD"
           source_value := .str "EXISTS"
           dest_value := .str "MISSING"
           status := .MISSING_IN_DEST
           severity := .HIGH
           notes := some "Record exists in source but missing in destination" }]
    | some source_record, some dest_record =>
      results ++ compare_records config source_record dest_record key sectionName) []

/-- `ReportComparator._perform_data_comparison`: compare every common
section (source order models the unspecified set order). -/
def perform_data_comparison (config : ValidationConfig)
    (source_data dest_data : ParsedExcelData) : List ComparisonResult :=
  let common := source_data.sections.filter (fun s => (alookup dest_data.sections s.1).isSome)
  common.foldl (fun results s =>
    results ++
      compare_section config s.2 ((alookup dest_data.sections s.1).getD []) s.1) []

/-- `ReportComparator.compare_reports`: structural validation (toggle) →
data comparison → calculation validation (toggle), with every
CALCULATION_ERROR also surfaced as a CRITICAL `TOTAL_CALCULATION`
result. -/
def compare_reports (config : ValidationConfig) (source_data dest_data : ParsedExcelData) :
    List ComparisonResult × List CalculationValidation :=
  let structural :=
    if config.enable_structure_validation then
      validate_sections source_data dest_data ++
        validate_record_counts source_data dest_data
    else []
  let data_results := perform_data_comparison config source_data dest_data
  let calc_validations :=
    if config.enable_calculation_validation then
      validate_totals config.precision source_data dest_data
    else []
  let calc_results :=
    (calc_validations.filter (fun cv => decide (cv.status = .CALCULATION_ERROR))).map
      (fun calc_val =>
        { key := "TOTAL_CALCULATION"
          sectionName := "CALCULATION"
          field := calc_val.field
          source_value := .num calc_val.expected_value
          dest_value := .num calc_val.actual_value
          status := ValidationStatus.CALCULATION_ERROR
          severity := SeverityLevel.CRITICAL
          difference := some (.num calc_val.difference)
          notes := some ("Calculation error: " ++ calc_val.formula_used.getD "None") })
  (structural ++ data_results ++ calc_results, calc_validations)

/-! ## General helper lemmas -/

/-- A fold preserves any invariant its step preserves. -/
theorem foldl_inv {α σ : Type} {step : σ → α → σ} {I : σ → Prop}
    (hstep : ∀ s x, I s → I (step s x)) :
    ∀ (l : List α) (s : σ), I s → I (l.foldl step s) := by
  intro l
  induction l with
  | nil => intro s hs; exact hs
  | cons x t ih => intro s hs; exact ih (step s x) (hstep s x hs)

theorem string_ext {a b : String} (h : a.data = b.data) : a = b := by
  cases a with
  | mk da => cases b with
    | mk db => exact congrArg String.mk (by simpa using h)

theorem string_append_left_cancel {a b c : String} (h : a ++ b = a ++ c) : b = c := by
  apply string_ext
  have hd : (a ++ b).data = (a ++ c).data := by rw [h]
  simpa using hd

/-- Filtering a `Nodup` list for one of its members gives that singleton. -/
theorem filter_eq_singleton_of_nodup {α : Type} [DecidableEq α] {l : List α} {a : α}
    (hn : l.Nodup) (ha : a ∈ l) : l.filter (fun x => decide (x = a)) = [a] := by
  induction l with
  | nil => simp at ha
  | cons x t ih =>
    by_cases hxa : x = a
    · subst hxa
      have hx : x ∉ t := (List.nodup_cons.mp hn).1
      have ht : t.filter (fun y => decide (y = x)) = [] := by
        apply List.filter_eq_nil_iff.mpr
        intro b hb
        simp only [decide_eq_true_eq]
        exact fun hbx => hx (hbx ▸ hb)
      simp [List.filter_cons, ht]
    · have hmem : a ∈ t := by
        rcases List.mem_cons.mp ha with h | h
        · exact absurd h.symm hxa
        · exact h
      have ht := ih (List.nodup_cons.mp hn).2 hmem
      simp [List.filter_cons, hxa, ht]

/-- Filtering for a value not in the list gives the empty list. -/
theorem filter_eq_nil_of_not_mem {α : Type} [DecidableEq α] {l : List α} {a : α}
    (ha : a ∉ l) : l.filter (fun x => decide (x = a)) = [] := by
  apply List.filter_eq_nil_iff.mpr
  intro b hb
  simp only [decide_eq_true_eq]
  exact fun hba => ha (hba ▸ hb)

theorem pyRound2_zero : pyRound2 0 = 0 := by with_unfolding_all decide

theorem pyRound2_hundred : pyRound2 100 = 100 := by with_unfolding_all decide

/-! ## C10: `validate_totals` reads only the destination document -/

/-- C10 (confirmed). `validate_totals` never reads its `source_data`
argument: for any two source documents and any destination document it
returns identical `CalculationValidation` lists — the summed expected
values and the reported totals are both read from the destination. -/
theorem c10_validate_totals_source_independent
    (precision : ℚ) (source_one source_two dest_data : ParsedExcelData) :
    validate_totals precision source_one dest_data =
      validate_totals precision source_two dest_data := rfl

/-! ## C6: severity assignment -/

/-- The claim's description of severity assignment, as its own case
analysis: CALCULATION_ERROR → CRITICAL; missing on either side → HIGH;
MISMATCH with a numeric difference → CRITICAL above
`high_value_threshold`, HIGH above `medium_percentage_error`, else
MEDIUM; MISMATCH with non-numeric difference → MEDIUM; anything else →
LOW. -/
def severity_rule (r : ComparisonResult) (config : ValidationConfig) : SeverityLevel :=
  match r.status, r.difference with
  | .CALCULATION_ERROR, _ => .CRITICAL
  | .MISSING_IN_SOURCE, _ => .HIGH
  | .MISSING_IN_DEST, _ => .HIGH
  | .MISMATCH, some (.num d) =>
    if |d| > config.severity_thresholds.high_value_threshold then .CRITICAL
    else if |d| > config.severity_thresholds.medium_percentage_error then .HIGH
    else .MEDIUM
  | .MISMATCH, _ => .MEDIUM
  | _, _ => .LOW

/-- C6 (confirmed). `determine_severity` is exactly the deterministic
rule of the claim, and the default thresholds are 1000
(`high_value_threshold`) and 1 (`medium_percentage_error`). -/
theorem c6_determine_severity_rule :
    (∀ (r : ComparisonResult) (config : ValidationConfig),
      determine_severity r config = severity_rule r config) ∧
    ({} : ValidationConfig).severity_thresholds.high_value_threshold = 1000 ∧
    ({} : ValidationConfig).severity_thresholds.medium_percentage_error = 1 := by
  refine ⟨fun r config => ?_, rfl, rfl⟩
  rcases r with ⟨key, sec, field, sv, dv, status, severity, diff, notes⟩
  cases status <;> rcases diff with _ | (q | s) <;>
    simp [determine_severity, severity_rule]

/-! ## C4: numerical comparator -/

/-- C4 (confirmed). Coercion maps `"12.5%"` to 12.5, `"(250)"` to −250
and `"1,234"` to 1234; whenever both sides coerce, `compare_numbers`
returns `difference = a − b` and matches exactly when `|a − b|` is
within the tolerance (`0.01` by default, the default of the
`NumericalComparator` constructor and of `ValidationConfig.precision`);
whenever either coercion fails it returns exact string equality with a
null difference. -/
theorem c4_compare_numbers :
    (to_number (.str "12.5%") = some (25 / 2) ∧
     to_number (.str "(250)") = some (-250) ∧
     to_number (.str "1,234") = some 1234 ∧
     ({} : ValidationConfig).precision = 1 / 100) ∧
    (∀ (precision : ℚ) (a b : Value) (x y : ℚ),
      to_number a = some x → to_number b = some y →
      ((compare_numbers precision a b).1 = true ↔ |x - y| ≤ precision) ∧
      (compare_numbers precision a b).2 = some (x - y)) ∧
    (∀ (precision : ℚ) (a b : Value),
      to_number a = none ∨ to_number b = none →
      ((compare_numbers precision a b).1 = true ↔ pyStr a = pyStr b) ∧
      (compare_numbers precision a b).2 = none) := by
  refine ⟨⟨?_, ?_, ?_, rfl⟩, ?_, ?_⟩
  · with_unfolding_all rfl
  · with_unfolding_all rfl
  · with_unfolding_all rfl
  · intro precision a b x y hx hy
    simp [compare_numbers, hx, hy]
  · intro precision a b h
    rcases h with h | h <;> rcases hx : to_number a with _ | x <;>
      rcases hy : to_number b with _ | y <;>
      simp_all [compare_numbers]

/-- Witness for C4 at concrete inputs: `5` vs `3` differ by `2` (no
match at tolerance `0.01`), and a non-coercing pair falls back to string
equality. -/
theorem c4_compare_numbers_witness :
    ((compare_numbers (1 / 100) (.num 5) (.num 3)).2 = some 2 ∧
      ¬(compare_numbers (1 / 100) (.num 5) (.num 3)).1 = true) ∧
    ((compare_numbers (1 / 100) (.str "abc") (.str "abc")).1 = true ∧
      (compare_numbers (1 / 100) (.str "abc") (.str "abc")).2 = none) := by
  have hnum := c4_compare_numbers.2.1 (1 / 100) (.num 5) (.num 3) 5 3 rfl rfl
  have hstr := c4_compare_numbers.2.2 (1 / 100) (.str "abc") (.str "abc")
    (Or.inl (by with_unfolding_all rfl))
  refine ⟨⟨?_, ?_⟩, ?_, hstr.2⟩
  · rw [hnum.2]; norm_num
  · rw [hnum.1]; norm_num
  · exact hstr.1.mpr rfl

/-! ## C8: summary generation -/

/-- A MATCH result used to exercise `generate_summary`. -/
def sample_match_result : ComparisonResult :=
  { key := "k", sectionName := "S", field := "f",
    source_value := .num 1, dest_value := .num 1,
    status := .MATCH, severity := .LOW }

/-- A MISMATCH result used to exercise `generate_summary`. -/
def sample_mismatch_result : ComparisonResult :=
  { key := "k2", sectionName := "S", field := "f",
    source_value := .num 1, dest_value := .num 2,
    status := .MISMATCH, severity := .MEDIUM, difference := some (.num (-1)) }

/-- C8 counterexample. With three results of which one is a MATCH,
`generate_summary` stores `round(100/3, 2) = 33.33`, not
`matches/total × 100 = 100/3`: the claim omits the rounding to two
decimal places. -/
theorem c8_generate_summary_counterexample :
    (generate_summary [sample_match_result, sample_mismatch_result, sample_mismatch_result]
        []).overall_match_percentage = 3333 / 100 ∧
    ¬(generate_summary [sample_match_result, sample_mismatch_result, sample_mismatch_result]
        []).overall_match_percentage = (1 : ℚ) / 3 * 100 := by
  constructor
  · with_unfolding_all rfl
  · with_unfolding_all decide

/-- C8 (corrected: the stored percentage is the claim's
`matches/total × 100`, rounded half-even to two decimal places as by
CPython's `round(x, 2)`). `generate_summary` counts results per status
and per severity over the full list, and the empty list yields 100. -/
theorem c8_generate_summary_counts (results : List ComparisonResult)
    (cvs : List CalculationValidation) :
    ((generate_summary results cvs).total_matches =
        results.countP (fun r => decide (r.status = .MATCH)) ∧
      (generate_summary results cvs).total_mismatches =
        results.countP (fun r => decide (r.status = .MISMATCH)) ∧
      (generate_summary results cvs).total_missing_in_source =
        results.countP (fun r => decide (r.status = .MISSING_IN_SOURCE)) ∧
      (generate_summary results cvs).total_missing_in_dest =
        results.countP (fun r => decide (r.status = .MISSING_IN_DEST))) ∧
    ((generate_summary results cvs).critical_issues =
        results.countP (fun r => decide (r.severity = .CRITICAL)) ∧
      (generate_summary results cvs).high_issues =
        results.countP (fun r => decide (r.severity = .HIGH)) ∧
      (generate_summary results cvs).medium_issues =
        results.countP (fun r => decide (r.severity = .MEDIUM)) ∧
      (generate_summary results cvs).low_issues =
        results.countP (fun r => decide (r.severity = .LOW))) ∧
    (generate_summary results cvs).overall_match_percentage =
      pyRound2 (if 0 < results.length then
        (results.countP (fun r => decide (r.status = .MATCH)) : ℚ) / results.length * 100
      else 100) ∧
    (generate_summary [] cvs).overall_match_percentage = 100 := by
  refine ⟨⟨?_, ?_, ?_, ?_⟩, ⟨?_, ?_, ?_, ?_⟩, ?_, ?_⟩ <;>
    simp [generate_summary, List.countP_eq_length_filter, pyRound2_hundred]

/-! ## C5: composite-key determinism -/

/-- A field is identifying when its lowered name contains `region`,
`supervis` or `area` (the tests of `_create_composite_key`'s loop). -/
def isIdentField (field : String) : Bool :=
  strContains (pyLower field) "region" || strContains (pyLower field) "supervis" ||
    strContains (pyLower field) "area"

/-- The identifying-field content of a row: its identifying
`(field, value)` pairs, in row order. -/
def identContent (row_data : Record) : Record :=
  row_data.filter (fun fv => isIdentField fv.1)

theorem identStep_of_not_ident {acc : String × String × String} {fv : String × Value}
    (h : isIdentField fv.1 = false) : identStep acc fv = acc := by
  have h' := h
  unfold isIdentField at h'
  rcases Bool.or_eq_false_iff.mp h' with ⟨h12, h3⟩
  rcases Bool.or_eq_false_iff.mp h12 with ⟨h1, h2⟩
  unfold identStep
  by_cases hf : pyFalsy fv.2 <;> simp [hf, h1, h2, h3]

/-- The identifying-triple fold only sees the identifying fields. -/
theorem identFold_eq_identContent (row_data : Record) (acc : String × String × String) :
    row_data.foldl identStep acc = (identContent row_data).foldl identStep acc := by
  induction row_data generalizing acc with
  | nil => rfl
  | cons fv t ih =>
    by_cases h : isIdentField fv.1
    · simp only [identContent, List.foldl_cons, List.filter_cons, h]
      exact ih (identStep acc fv)
    · have hb : isIdentField fv.1 = false := by simpa using h
      simp only [identContent, List.foldl_cons, List.filter_cons, hb, cond_false,
        identStep_of_not_ident hb]
      simpa only [identContent] using ih acc

theorem pyJoin_head_ne_empty (p : String) (rest : List String) (hp : p.data ≠ []) :
    (pyJoin "_" (p :: rest)).data ≠ [] := by
  cases rest with
  | nil => simpa [pyJoin] using hp
  | cons q rs =>
    show (p ++ "_" ++ pyJoin "_" (q :: rs)).data ≠ []
    rcases hq : p.data with _ | ⟨c, cs⟩
    · exact absurd hq hp
    · simp [hq]

theorem key_from_triple_ne_empty {t : String × String × String}
    (h : [t.1, t.2.1, t.2.2].any (fun p => !p.data.isEmpty) = true) :
    (key_from_triple t).data ≠ [] := by
  rcases List.any_eq_true.mp h with ⟨p, hp, hpe⟩
  have hpne : p.data ≠ [] := by
    intro hnil
    simp [hnil] at hpe
  have hmem : p ∈ [t.1, t.2.1, t.2.2].filter (fun p => !p.data.isEmpty) :=
    List.mem_filter.mpr ⟨hp, hpe⟩
  rcases hl : [t.1, t.2.1, t.2.2].filter (fun p => !p.data.isEmpty) with _ | ⟨p₀, rest⟩
  · rw [hl] at hmem; simp at hmem
  · have hp₀mem : p₀ ∈ [t.1, t.2.1, t.2.2].filter (fun p => !p.data.isEmpty) := by
      rw [hl]; exact List.mem_cons_self p₀ rest
    have hp₀ : p₀.data ≠ [] := by
      have := (List.mem_filter.mp hp₀mem).2
      intro hnil
      simp [hnil] at this
    have hjoin := pyJoin_head_ne_empty p₀ rest hp₀
    unfold key_from_triple
    rw [hl]
    simp only [strReplaceChar]
    intro hcon
    exact hjoin (List.map_eq_nil_iff.mp hcon)

/-- C5 counterexample. Two rows with identical (empty) identifying-field
content but different other fields get different composite keys: with no
identifying content the key falls back to a hash of the whole row. -/
theorem c5_composite_key_counterexample :
    identContent [("A", Value.num 1)] = identContent [("A", Value.num 2)] ∧
    create_composite_key [("A", Value.num 1)] ≠ create_composite_key [("A", Value.num 2)] := by
  constructor
  · with_unfolding_all rfl
  · with_unfolding_all decide

/-- C5 (corrected: rows with identical identifying-field content get the
same composite key regardless of their other fields, provided at least
one identifying slot ends up non-empty; when all slots are empty the key
falls back to a content hash of the entire row and can differ). -/
theorem c5_composite_key_deterministic (row_one row_two : Record)
    (hid : identContent row_one = identContent row_two)
    (hne : [(identTriple row_one).1, (identTriple row_one).2.1,
            (identTriple row_one).2.2].any (fun p => !p.data.isEmpty) = true) :
    create_composite_key row_one = create_composite_key row_two := by
  have htr : identTriple row_one = identTriple row_two := by
    unfold identTriple
    rw [identFold_eq_identContent, hid, ← identFold_eq_identContent]
  have hkey := key_from_triple_ne_empty hne
  have hb : (!(key_from_triple (identTriple row_one)).data.isEmpty) = true := by
    simpa [List.isEmpty_iff] using hkey
  simp only [create_composite_key, ← htr, hb, if_true]

/-- Witness for C5: two rows sharing `Region = Central` but with
different `Day Sale` values both key to `Central`. -/
theorem c5_composite_key_witness :
    create_composite_key [("Region", Value.str "Central"), ("Day Sale", Value.num 1000)] =
      create_composite_key [("Region", Value.str "Central"), ("Day Sale", Value.num 1050)] :=
  c5_composite_key_deterministic _ _ (by with_unfolding_all rfl) (by with_unfolding_all rfl)

/-! ## C7: section-presence validation -/

theorem filter_map_comm {α β : Type} (f : α → β) (p : β → Bool) (l : List α) :
    (l.map f).filter p = (l.filter (fun x => p (f x))).map f := by
  induction l with
  | nil => rfl
  | cons x t ih =>
    by_cases hx : p (f x) = true <;>
      simp [List.filter_cons, hx, ih]

theorem section_key_inj {m n : String} (h : "SECTION_" ++ m = "SECTION_" ++ n) : m = n :=
  string_append_left_cancel h

/-- C7 (confirmed). For a section present in exactly one document,
`validate_sections` emits exactly one result keyed `SECTION_<name>`:
status MISSING_IN_DEST with severity CRITICAL for a source-only section,
status MISSING_IN_SOURCE with severity HIGH for a destination-only one. -/
theorem c7_validate_sections_missing (source_data dest_data : ParsedExcelData) (n : String)
    (hs : (source_data.sections.map Prod.fst).Nodup)
    (hd : (dest_data.sections.map Prod.fst).Nodup) :
    (n ∈ source_data.sections.map Prod.fst → n ∉ dest_data.sections.map Prod.fst →
      (validate_sections source_data dest_data).filter
          (fun r => decide (r.key = "SECTION_" ++ n)) =
        [{ key := "SECTION_" ++ n, sectionName := "STRUCTURAL", field := "ENTIRE_SECTION",
           source_value := .str "EXISTS", dest_value := .str "MISSING",
           status := .MISSING_IN_DEST, severity := .CRITICAL,
           notes := some ("Section '" ++ n ++ "' exists in source but missing in destination") }]) ∧
    (n ∉ source_data.sections.map Prod.fst → n ∈ dest_data.sections.map Prod.fst →
      (validate_sections source_data dest_data).filter
          (fun r => decide (r.key = "SECTION_" ++ n)) =
        [{ key := "SECTION_" ++ n, sectionName := "STRUCTURAL", field := "ENTIRE_SECTION",
           source_value := .str "MISSING", dest_value := .str "EXISTS",
           status := .MISSING_IN_SOURCE, severity := .HIGH,
           notes := some ("Section '" ++ n ++ "' exists in destination but missing in source") }]) := by
  have hkey : ∀ m, (decide ("SECTION_" ++ m = "SECTION_" ++ n)) = decide (m = n) := by
    intro m
    by_cases hmn : m = n
    · simp [hmn]
    · simp only [decide_eq_decide]
      exact iff_of_false (fun hc => hmn (section_key_inj hc)) hmn
  constructor
  · intro hsrc hdst
    unfold validate_sections
    rw [List.filter_append,
      filter_map_comm (l := (source_data.sections.map Prod.fst).filter
        (fun s => decide (¬ s ∈ dest_data.sections.map Prod.fst))),
      filter_map_comm (l := (dest_data.sections.map Prod.fst).filter
        (fun s => decide (¬ s ∈ source_data.sections.map Prod.fst)))]
    simp only [hkey]
    have hA : (((source_data.sections.map Prod.fst).filter
        (fun s => decide (¬ s ∈ dest_data.sections.map Prod.fst))).filter
        (fun x => decide (x = n))) = [n] := by
      apply filter_eq_singleton_of_nodup (List.Nodup.filter _ hs)
      exact List.mem_filter.mpr ⟨hsrc, by simpa using hdst⟩
    have hB : (((dest_data.sections.map Prod.fst).filter
        (fun s => decide (¬ s ∈ source_data.sections.map Prod.fst))).filter
        (fun x => decide (x = n))) = [] := by
      apply filter_eq_nil_of_not_mem
      intro hmem
      exact hdst (List.mem_of_mem_filter hmem)
    rw [hA, hB]
    rfl
  · intro hsrc hdst
    unfold validate_sections
    rw [List.filter_append,
      filter_map_comm (l := (source_data.sections.map Prod.fst).filter
        (fun s => decide (¬ s ∈ dest_data.sections.map Prod.fst))),
      filter_map_comm (l := (dest_data.sections.map Prod.fst).filter
        (fun s => decide (¬ s ∈ source_data.sections.map Prod.fst)))]
    simp only [hkey]
    have hA : (((source_data.sections.map Prod.fst).filter
        (fun s => decide (¬ s ∈ dest_data.sections.map Prod.fst))).filter
        (fun x => decide (x = n))) = [] := by
      apply filter_eq_nil_of_not_mem
      intro hmem
      exact hsrc (List.mem_of_mem_filter hmem)
    have hB : (((dest_data.sections.map Prod.fst).filter
        (fun s => decide (¬ s ∈ source_data.sections.map Prod.fst))).filter
        (fun x => decide (x = n))) = [n] := by
      apply filter_eq_singleton_of_nodup (List.Nodup.filter _ hd)
      exact List.mem_filter.mpr ⟨hdst, by simpa using hsrc⟩
    rw [hA, hB]
    rfl

/-- Witness for C7: a document pair where section `BQ` is source-only
and section `NA` is destination-only. -/
theorem c7_validate_sections_witness :
    (validate_sections { sections := [("BQ", [])] } { sections := [("NA", [])] }).filter
        (fun r => decide (r.key = "SECTION_" ++ "BQ")) =
      [{ key := "SECTION_" ++ "BQ", sectionName := "STRUCTURAL", field := "ENTIRE_SECTION",
         source_value := .str "EXISTS", dest_value := .str "MISSING",
         status := .MISSING_IN_DEST, severity := .CRITICAL,
         notes := some ("Section '" ++ "BQ" ++ "' exists in source but missing in destination") }] ∧
    (validate_sections { sections := [("BQ", [])] } { sections := [("NA", [])] }).filter
        (fun r => decide (r.key = "SECTION_" ++ "NA")) =
      [{ key := "SECTION_" ++ "NA", sectionName := "STRUCTURAL", field := "ENTIRE_SECTION",
         source_value := .str "MISSING", dest_value := .str "EXISTS",
         status := .MISSING_IN_SOURCE, severity := .HIGH,
         notes := some ("Section '" ++ "NA" ++ "' exists in destination but missing in source") }] :=
  ⟨(c7_validate_sections_missing { sections := [("BQ", [])] } { sections := [("NA", [])] } "BQ"
      (by decide) (by decide)).1 (by decide) (by decide),
   (c7_validate_sections_missing { sections := [("BQ", [])] } { sections := [("NA", [])] } "NA"
      (by decide) (by decide)).2 (by decide) (by decide)⟩

/-! ## C1: totals validation -/

theorem foldl_append_toList {α β : Type} (f : α → Option β) :
    ∀ (l : List α) (init : List β),
      l.foldl (fun acc x => acc ++ (f x).toList) init = init ++ l.flatMap (fun x => (f x).toList) := by
  intro l
  induction l with
  | nil => intro init; simp
  | cons x t ih => intro init; simp [ih, List.append_assoc]

theorem field_validation_field {precision : ℚ} {ds : List (String × List Record)}
    {ind : List String} {tr : Record} {x : String} {cv : CalculationValidation}
    (h : field_validation precision ds ind tr x = some cv) : cv.field = x := by
  unfold field_validation at h
  split at h
  · simp at h
  · split at h
    · split at h
      · split at h
        · injection h with h
          rw [← h]
        · simp at h
      · simp at h
    · simp at h

theorem bind_toList_field_mem {f : String → Option CalculationValidation}
    (hf : ∀ x cv, f x = some cv → cv.field = x) :
    ∀ (l : List String), ∀ cv ∈ l.flatMap (fun x => (f x).toList), cv.field ∈ l := by
  intro l
  induction l with
  | nil => simp
  | cons x t ih =>
    intro cv hcv
    rw [List.flatMap_cons] at hcv
    rcases List.mem_append.mp hcv with h | h
    · rcases hx : f x with _ | v
      · rw [hx] at h; simp at h
      · rw [hx] at h
        simp only [Option.toList_some, List.mem_singleton] at h
        subst h
        exact List.mem_cons.mpr (Or.inl (hf x cv hx))
    · exact List.mem_cons.mpr (Or.inr (ih cv h))

theorem filter_bind_single {f : String → Option CalculationValidation} {F : String}
    (hf : ∀ x cv, f x = some cv → cv.field = x) :
    ∀ (l : List String), l.Nodup → F ∈ l →
      (l.flatMap (fun x => (f x).toList)).filter (fun cv => decide (cv.field = F)) =
        (f F).toList := by
  intro l
  induction l with
  | nil => intro _ h; simp at h
  | cons x t ih =>
    intro hnd hF
    have hxt : x ∉ t := (List.nodup_cons.mp hnd).1
    rw [List.flatMap_cons, List.filter_append]
    by_cases hxF : x = F
    · subst hxF
      have h1 : ((f x).toList).filter (fun cv => decide (cv.field = x)) = (f x).toList := by
        apply List.filter_eq_self.mpr
        intro cv hcv
        rcases hx : f x with _ | v
        · rw [hx] at hcv; simp at hcv
        · rw [hx] at hcv
          simp only [Option.toList_some, List.mem_singleton] at hcv
          subst hcv
          simp [hf x cv hx]
      have h2 : (t.flatMap (fun y => (f y).toList)).filter (fun cv => decide (cv.field = x)) = [] := by
        apply List.filter_eq_nil_iff.mpr
        intro cv hcv
        simp only [decide_eq_true_eq]
        intro hfield
        exact hxt (hfield ▸ bind_toList_field_mem hf t cv hcv)
      rw [h1, h2, List.append_nil]
    · have hFt : F ∈ t := by
        rcases List.mem_cons.mp hF with h | h
        · exact absurd h.symm hxF
        · exact h
      have h1 : ((f x).toList).filter (fun cv => decide (cv.field = F)) = [] := by
        apply List.filter_eq_nil_iff.mpr
        intro cv hcv
        rcases hx : f x with _ | v
        · rw [hx] at hcv; simp at hcv
        · rw [hx] at hcv
          simp only [Option.toList_some, List.mem_singleton] at hcv
          subst hcv
          simp [hf x cv hx, hxF]
      rw [h1, List.nil_append]
      exact ih (List.nodup_cons.mp hnd).2 hFt

theorem validate_totals_eq_bind {precision : ℚ} {src dest_data : ParsedExcelData}
    {total_section : String} {total_record : Record} {rest : List Record}
    (hfind : total_section_of dest_data = some total_section)
    (hind : (individual_sections dest_data).isEmpty = false)
    (htr : (alookup dest_data.sections total_section).getD [] = total_record :: rest) :
    validate_totals precision src dest_data =
      summable_fields.flatMap (fun field =>
        (field_validation precision dest_data.sections (individual_sections dest_data)
          total_record field).toList) := by
  unfold validate_totals
  rw [hfind]
  simp only [hind, Bool.false_eq_true, if_false, htr]
  rw [foldl_append_toList]
  simp

/-- C1 (corrected: in the 450-case the emitted `percentage_error` is
`|difference/expected| × 100 = 10`, not ≈ 11.11).  For a destination
with a total section, at least one itemized section, and a summable
field `F` summing to 500 over the itemized records: a reported total of
500 yields the single validation for `F` with status MATCH and
difference 0, and a reported total of 450 at tolerance 0.01 yields
status CALCULATION_ERROR with difference 50 and percentage_error 10. -/
theorem c1_validate_totals (src dest_data : ParsedExcelData)
    (total_section F : String) (total_record : Record) (rest : List Record)
    (hfind : total_section_of dest_data = some total_section)
    (hind : (individual_sections dest_data).isEmpty = false)
    (htr : (alookup dest_data.sections total_section).getD [] = total_record :: rest)
    (hF : F ∈ summable_fields)
    (hsum : sum_field dest_data.sections (individual_sections dest_data) F = (500, true)) :
    (∀ v, alookup total_record F = some v → to_number v = some 500 →
      (validate_totals (1 / 100) src dest_data).filter (fun cv => decide (cv.field = F)) =
        [{ field := F, expected_value := 500, actual_value := 500, difference := 0,
           percentage_error := 0, status := .MATCH,
           formula_used :=
             some ("Sum of " ++ pyJoin ", " (individual_sections dest_data) ++ " sections") }]) ∧
    (∀ v, alookup total_record F = some v → to_number v = some 450 →
      (validate_totals (1 / 100) src dest_data).filter (fun cv => decide (cv.field = F)) =
        [{ field := F, expected_value := 500, actual_value := 450, difference := 50,
           percentage_error := 10, status := .CALCULATION_ERROR,
           formula_used :=
             some ("Sum of " ++ pyJoin ", " (individual_sections dest_data) ++ " sections") }]) := by
  have hnodup : summable_fields.Nodup := by decide
  have hrw : ∀ v a, alookup total_record F = some v → to_number v = some a →
      (validate_totals (1 / 100) src dest_data).filter (fun cv => decide (cv.field = F)) =
        (field_validation (1 / 100) dest_data.sections (individual_sections dest_data)
          total_record F).toList := by
    intro v a hv ha
    rw [validate_totals_eq_bind hfind hind htr]
    exact filter_bind_single (fun x cv h => field_validation_field h) summable_fields hnodup hF
  have hval : ∀ v a, alookup total_record F = some v → to_number v = some a →
      field_validation (1 / 100) dest_data.sections (individual_sections dest_data)
        total_record F =
      some { field := F, expected_value := 500, actual_value := a, difference := 500 - a,
             percentage_error := if (500 : ℚ) ≠ 0 then |(500 - a) / 500 * 100| else 0,
             status := if |(500 : ℚ) - a| > 1 / 100 then .CALCULATION_ERROR else .MATCH,
             formula_used :=
               some ("Sum of " ++ pyJoin ", " (individual_sections dest_data) ++ " sections") } := by
    intro v a hv ha
    have hvnull : v ≠ Value.null := by
      intro hnull
      rw [hnull] at ha
      simp [to_number] at ha
    unfold field_validation
    rw [hsum, hv]
    simp [hvnull, ha]
  constructor
  · intro v hv ha
    rw [hrw v 500 hv ha, hval v 500 hv ha]
    norm_num
  · intro v hv ha
    rw [hrw v 450 hv ha, hval v 450 hv ha]
    have h1 : |((500 : ℚ) - 450) / 500 * 100| = 10 := by norm_num
    have h2 : |(500 : ℚ) - 450| > 1 / 100 := by norm_num
    norm_num [h1, h2]

/-- A destination document for C1's 450-scenario: `Day Sale` sums to 500
over the itemized `BQ` records, the `COMBINED` total reports 450. -/
def dest_totals_450 : ParsedExcelData :=
  { sections :=
      [("BQ", [[("Day Sale", .num 300), ("composite_key", .str "a")],
               [("Day Sale", .num 200), ("composite_key", .str "b")]]),
       ("COMBINED", [[("Day Sale", .num 450)]])] }

/-- The same destination with the total correctly reporting 500. -/
def dest_totals_500 : ParsedExcelData :=
  { sections :=
      [("BQ", [[("Day Sale", .num 300), ("composite_key", .str "a")],
               [("Day Sale", .num 200), ("composite_key", .str "b")]]),
       ("COMBINED", [[("Day Sale", .num 500)]])] }

/-- C1 counterexample. At the claim's own 500-vs-450 input the emitted
`percentage_error` is exactly 10 (`|50/500|×100`), not approximately
11.11 — it is more than 1 away from the claimed value. -/
theorem c1_validate_totals_counterexample :
    (validate_totals (1 / 100) {} dest_totals_450) =
      [{ field := "Day Sale", expected_value := 500, actual_value := 450, difference := 50,
         percentage_error := 10, status := .CALCULATION_ERROR,
         formula_used := some "Sum of BQ sections" }] ∧
    ¬(|(10 : ℚ) - 1111 / 100| < 1) := by
  constructor
  · with_unfolding_all rfl
  · rw [show (10 : ℚ) - 1111 / 100 = -(111 / 100) by norm_num, abs_neg,
      abs_of_nonneg (by norm_num : (0 : ℚ) ≤ 111 / 100)]
    norm_num

/-- Witness for C1 at the two concrete documents. -/
theorem c1_validate_totals_witness :
    (validate_totals (1 / 100) {} dest_totals_500).filter
        (fun cv => decide (cv.field = "Day Sale")) =
      [{ field := "Day Sale", expected_value := 500, actual_value := 500, difference := 0,
         percentage_error := 0, status := .MATCH,
         formula_used := some ("Sum of " ++ pyJoin ", " (individual_sections dest_totals_500)
           ++ " sections") }] ∧
    (validate_totals (1 / 100) {} dest_totals_450).filter
        (fun cv => decide (cv.field = "Day Sale")) =
      [{ field := "Day Sale", expected_value := 500, actual_value := 450, difference := 50,
         percentage_error := 10, status := .CALCULATION_ERROR,
         formula_used := some ("Sum of " ++ pyJoin ", " (individual_sections dest_totals_450)
           ++ " sections") }] :=
  ⟨(c1_validate_totals {} dest_totals_500 "COMBINED" "Day Sale" [("Day Sale", .num 500)] []
        (by with_unfolding_all rfl) (by with_unfolding_all rfl) (by with_unfolding_all rfl)
        (by decide) (by with_unfolding_all rfl)).1
      (.num 500) (by with_unfolding_all rfl) (by with_unfolding_all rfl),
   (c1_validate_totals {} dest_totals_450 "COMBINED" "Day Sale" [("Day Sale", .num 450)] []
        (by with_unfolding_all rfl) (by with_unfolding_all rfl) (by with_unfolding_all rfl)
        (by decide) (by with_unfolding_all rfl)).2
      (.num 450) (by with_unfolding_all rfl) (by with_unfolding_all rfl)⟩

/-! ## C9: no MATCH result is ever materialized -/

theorem validate_sections_no_match {source_data dest_data : ParsedExcelData} :
    ∀ r ∈ validate_sections source_data dest_data, r.status ≠ ValidationStatus.MATCH := by
  intro r hr
  unfold validate_sections at hr
  rcases List.mem_append.mp hr with h | h <;>
    · rcases List.mem_map.mp h with ⟨sec, _, hsec⟩
      rw [← hsec]
      simp

theorem validate_record_counts_no_match {source_data dest_data : ParsedExcelData} :
    ∀ r ∈ validate_record_counts source_data dest_data,
      r.status ≠ ValidationStatus.MATCH := by
  unfold validate_record_counts
  generalize (source_data.sections.filter
    (fun s => (alookup dest_data.sections s.1).isSome)) = common
  induction common with
  | nil => simp
  | cons s t ih =>
    intro r hr
    simp only [List.foldr_cons] at hr
    by_cases hc : s.2.length ≠ ((alookup dest_data.sections s.1).getD []).length
    · rw [if_pos hc] at hr
      rcases List.mem_cons.mp hr with h | h
      · rw [h]; simp
      · exact ih r h
    · rw [if_neg hc] at hr
      exact ih r hr

theorem compare_records_no_match {config : ValidationConfig} {sr dr : Record} {key : Value}
    {sec : String} :
    ∀ r ∈ compare_records config sr dr key sec, r.status ≠ ValidationStatus.MATCH := by
  intro r hr
  simp only [compare_records] at hr
  refine foldl_inv (I := fun acc => ∀ x ∈ acc, x.status ≠ ValidationStatus.MATCH)
    ?_ _ _ (by simp) r hr
  intro acc field hacc x hx
  by_cases hc : (compare_numbers config.precision ((alookup sr field).getD .null)
      ((alookup dr field).getD .null)).1 = true
  · rw [if_pos hc] at hx
    exact hacc x hx
  · rw [if_neg hc] at hx
    rcases List.mem_append.mp hx with h | h
    · exact hacc x h
    · rcases List.mem_singleton.mp h with rfl
      simp

theorem compare_section_no_match {config : ValidationConfig} {ss ds : List Record}
    {sec : String} :
    ∀ r ∈ compare_section config ss ds sec, r.status ≠ ValidationStatus.MATCH := by
  intro r hr
  simp only [compare_section] at hr
  refine foldl_inv (I := fun acc => ∀ x ∈ acc, x.status ≠ ValidationStatus.MATCH)
    ?_ _ _ (by simp) r hr
  intro acc key hacc x hx
  rcases hs : alookup (record_lookup ss) key with _ | srec <;>
    rcases hd : alookup (record_lookup ds) key with _ | drec <;>
    rw [hs, hd] at hx <;>
    rcases List.mem_append.mp hx with h | h <;>
    first
      | exact hacc x h
      | (rcases List.mem_singleton.mp h with rfl; simp)
      | exact compare_records_no_match x h

theorem perform_data_comparison_no_match {config : ValidationConfig}
    {source_data dest_data : ParsedExcelData} :
    ∀ r ∈ perform_data_comparison config source_data dest_data,
      r.status ≠ ValidationStatus.MATCH := by
  intro r hr
  simp only [perform_data_comparison] at hr
  refine foldl_inv (I := fun acc => ∀ x ∈ acc, x.status ≠ ValidationStatus.MATCH)
    ?_ _ _ (by simp) r hr
  intro acc s hacc x hx
  rcases List.mem_append.mp hx with h | h
  · exact hacc x h
  · exact compare_section_no_match x h

/-- C9 (confirmed). Every result `compare_reports` returns has a status
other than MATCH — field-level matches are only counted, never
materialized — so `generate_summary` over its output reports
`total_matches = 0` and an overall percentage of 0 whenever the result
list is non-empty (100 only when it is empty). -/
theorem c9_compare_reports_no_match (config : ValidationConfig)
    (source_data dest_data : ParsedExcelData) :
    (∀ r ∈ (compare_reports config source_data dest_data).1,
      r.status ≠ ValidationStatus.MATCH) ∧
    (generate_summary (compare_reports config source_data dest_data).1
        (compare_reports config source_data dest_data).2).total_matches = 0 ∧
    ((compare_reports config source_data dest_data).1 = [] →
      (generate_summary (compare_reports config source_data dest_data).1
        (compare_reports config source_data dest_data).2).overall_match_percentage = 100) ∧
    ((compare_reports config source_data dest_data).1 ≠ [] →
      (generate_summary (compare_reports config source_data dest_data).1
        (compare_reports config source_data dest_data).2).overall_match_percentage = 0) := by
  have hall : ∀ r ∈ (compare_reports config source_data dest_data).1,
      r.status ≠ ValidationStatus.MATCH := by
    intro r hr
    simp only [compare_reports] at hr
    rcases List.mem_append.mp hr with h | h
    · rcases List.mem_append.mp h with h' | h'
      · by_cases ht : config.enable_structure_validation = true
        · rw [if_pos ht] at h'
          rcases List.mem_append.mp h' with h'' | h''
          · exact validate_sections_no_match r h''
          · exact validate_record_counts_no_match r h''
        · rw [if_neg ht] at h'
          simp at h'
      · exact perform_data_comparison_no_match r h'
    · rcases List.mem_map.mp h with ⟨cv, _, hcv⟩
      rw [← hcv]
      simp
  have hfilter : ((compare_reports config source_data dest_data).1.filter
      (fun r => decide (r.status = ValidationStatus.MATCH))) = [] := by
    apply List.filter_eq_nil_iff.mpr
    intro r hr
    simpa using hall r hr
  refine ⟨hall, ?_, ?_, ?_⟩
  · simp [generate_summary, hfilter]
  · intro hnil
    simp [generate_summary, hnil, pyRound2_hundred]
  · intro hne
    have hlen : 0 < (compare_reports config source_data dest_data).1.length :=
      List.length_pos.mpr hne
    simp only [generate_summary, hfilter, List.length_nil, Nat.cast_zero]
    rw [if_pos hlen]
    simpa using pyRound2_zero

/-- Witness for C9: concrete documents producing one structural result;
its status is not MATCH and the summary reports a 0 overall match
percentage. -/
theorem c9_compare_reports_no_match_witness :
    ((compare_reports {} { sections := [("BQ", [])] } { sections := [] }).1.all
      (fun r => decide (r.status ≠ ValidationStatus.MATCH))) = true ∧
    ValidationSummary.overall_match_percentage
      (generate_summary (compare_reports {} { sections := [("BQ", [])] } { sections := [] }).1
        (compare_reports {} { sections := [("BQ", [])] } { sections := [] }).2) = 0 := by
  constructor
  · exact List.all_eq_true.mpr (fun r hr => by
      simpa using (c9_compare_reports_no_match {} { sections := [("BQ", [])] }
        { sections := [] }).1 r hr)
  · exact (c9_compare_reports_no_match {} { sections := [("BQ", [])] } { sections := [] }).2.2.2
      (by with_unfolding_all decide)

/-! ## C3: detected-section intervals -/

/-- The closed `(start_row, end_row)` intervals recorded in a scan map. -/
def closedIntervals (m : List (String × Nat × Option Nat)) : List (Nat × Nat) :=
  m.filterMap (fun e => e.2.2.map (fun en => (e.2.1, en)))

/-- Row-set disjointness of two `(start, end)` intervals (an interval
with `end < start` is empty). -/
def intervalsDisjoint (a b : Nat × Nat) : Prop :=
  ∀ x : Nat, ¬(a.1 ≤ x ∧ x ≤ a.2 ∧ b.1 ≤ x ∧ x ≤ b.2)

theorem mem_aset {κ ν : Type} [DecidableEq κ] {k : κ} {v : ν} {e : κ × ν} :
    ∀ {m : List (κ × ν)}, e ∈ aset m k v → e ∈ m ∨ e = (k, v) := by
  intro m
  induction m with
  | nil =>
    intro he
    exact Or.inr (by simpa [aset] using he)
  | cons hd t ih =>
    obtain ⟨k₀, v₀⟩ := hd
    intro he
    by_cases hk : k₀ = k
    · subst hk
      rcases List.mem_cons.mp (by simpa [aset] using he) with h | h
      · exact Or.inr h
      · exact Or.inl (List.mem_cons.mpr (Or.inr h))
    · rcases List.mem_cons.mp (by simpa [aset, hk] using he) with h | h
      · exact Or.inl (List.mem_cons.mpr (Or.inl h))
      · rcases ih h with h' | h'
        · exact Or.inl (List.mem_cons.mpr (Or.inr h'))
        · exact Or.inr h'

theorem aset_keys_nodup {κ ν : Type} [DecidableEq κ] {m : List (κ × ν)} {k : κ} {v : ν}
    (h : (m.map Prod.fst).Nodup) : ((aset m k v).map Prod.fst).Nodup := by
  induction m with
  | nil => simp [aset]
  | cons hd t ih =>
    obtain ⟨k₀, v₀⟩ := hd
    by_cases hk : k₀ = k
    · subst hk
      simpa [aset] using h
    · have hh := List.nodup_cons.mp (show (k₀ :: t.map Prod.fst).Nodup from h)
      have hmem : k₀ ∉ (aset t k v).map Prod.fst := by
        intro hc
        rcases List.mem_map.mp hc with ⟨e, he, hke⟩
        rcases mem_aset he with h' | h'
        · exact hh.1 (hke ▸ List.mem_map.mpr ⟨e, h', rfl⟩)
        · exact hk (by rw [h'] at hke; exact hke.symm ▸ rfl)
      simp only [aset, if_neg hk, List.map_cons, List.nodup_cons]
      exact ⟨hmem, ih hh.2⟩

theorem closed_aset_close {m : List (String × Nat × Option Nat)} {k : String} {s e : Nat}
    (hnd : (m.map Prod.fst).Nodup) (hl : alookup m k = some (s, none)) :
    ∃ l₁ l₂, closedIntervals m = l₁ ++ l₂ ∧
      closedIntervals (aset m k (s, some e)) = l₁ ++ (s, e) :: l₂ := by
  induction m with
  | nil => simp [alookup] at hl
  | cons hd t ih =>
    obtain ⟨k₀, v₀⟩ := hd
    by_cases hk : k₀ = k
    · subst hk
      have hv : v₀ = (s, none) := by
        simpa [alookup] using hl
      subst hv
      exact ⟨[], closedIntervals t, by simp [closedIntervals], by simp [aset, closedIntervals]⟩
    · have hl' : alookup t k = some (s, none) := by
        simpa [alookup, hk] using hl
      have hnd' : (t.map Prod.fst).Nodup := (List.nodup_cons.mp (by simpa using hnd)).2
      rcases ih hnd' hl' with ⟨l₁, l₂, h1, h2⟩
      rcases hv : v₀.2 with _ | en
      · refine ⟨l₁, l₂, ?_, ?_⟩
        · simpa [closedIntervals, hv] using h1
        · simpa [aset, hk, closedIntervals, hv] using h2
      · refine ⟨(v₀.1, en) :: l₁, l₂, ?_, ?_⟩
        · simpa [closedIntervals, hv] using congrArg (List.cons (v₀.1, en)) h1
        · simpa [aset, hk, closedIntervals, hv] using congrArg (List.cons (v₀.1, en)) h2

theorem closed_aset_open_sublist {m : List (String × Nat × Option Nat)} {k : String} {r : Nat} :
    (closedIntervals (aset m k (r, none))).Sublist (closedIntervals m) := by
  induction m with
  | nil => simp [aset, closedIntervals]
  | cons hd t ih =>
    obtain ⟨k₀, v₀⟩ := hd
    by_cases hk : k₀ = k
    · subst hk
      rcases hv : v₀.2 with _ | en
      · simp only [aset, if_pos rfl, closedIntervals, List.filterMap_cons, hv]
        exact List.Sublist.refl _
      · simp only [aset, if_pos rfl, closedIntervals, List.filterMap_cons, hv,
          Option.map_some]
        exact List.sublist_cons_self _ _
    · rcases hv : v₀.2 with _ | en <;>
        simp only [aset, if_neg hk, closedIntervals, List.filterMap_cons, hv,
          Option.map_none, Option.map_some]
      · exact ih
      · exact List.Sublist.cons₂ _ ih

theorem disjoint_of_end_lt {ab : Nat × Nat} {s e : Nat} (h : ab.2 < s) :
    intervalsDisjoint ab (s, e) ∧ intervalsDisjoint (s, e) ab := by
  constructor <;> intro x <;> intro hx <;> omega

theorem pairwise_insert_closed {l₁ l₂ : List (Nat × Nat)} {s e : Nat}
    (hdisj : List.Pairwise intervalsDisjoint (l₁ ++ l₂))
    (hlt : ∀ ab ∈ l₁ ++ l₂, ab.2 < s) :
    List.Pairwise intervalsDisjoint (l₁ ++ (s, e) :: l₂) := by
  rw [List.pairwise_append] at hdisj ⊢
  obtain ⟨h₁, h₂, h₁₂⟩ := hdisj
  refine ⟨h₁, ?_, ?_⟩
  · rw [List.pairwise_cons]
    refine ⟨?_, h₂⟩
    intro ab hab
    exact (disjoint_of_end_lt (hlt ab (List.mem_append.mpr (Or.inr hab)))).2
  · intro a ha b hb
    rcases List.mem_cons.mp hb with hb' | hb'
    · subst hb'
      exact (disjoint_of_end_lt (hlt a (List.mem_append.mpr (Or.inl ha)))).1
    · exact h₁₂ a ha b hb'

/-- The invariant of the `detect_sections` scan at row `p`: keys are
unique; the open section (if any) is recorded with a `none` end, started
at or before `p`, and strictly after every closed end; with no open
section the map is empty; and the closed intervals are pairwise
disjoint. -/
structure DetectInv (st : DetectState) (p : Nat) : Prop where
  nodup : (st.sections.map Prod.fst).Nodup
  hopen : ∀ cur, st.current = some cur →
    ∃ s, alookup st.sections cur = some (s, none) ∧ s ≤ p ∧
      ∀ ab ∈ closedIntervals st.sections, ab.2 < s
  hnone : st.current = none → st.sections = []
  hdisj : List.Pairwise intervalsDisjoint (closedIntervals st.sections)

theorem dinv_start : DetectInv ⟨[], none⟩ 1 :=
  ⟨by simp, fun cur h => by simp at h, fun _ => rfl, by simp [closedIntervals]⟩

theorem dinv_mono {st : DetectState} {p q : Nat} (h : DetectInv st p) (hpq : p ≤ q) :
    DetectInv st q := by
  refine ⟨h.nodup, ?_, h.hnone, h.hdisj⟩
  intro cur hcur
  rcases h.hopen cur hcur with ⟨s, h1, h2, h3⟩
  exact ⟨s, h1, h2.trans hpq, h3⟩

theorem dinv_detect_cell {st : DetectState} {p : Nat} (hinv : DetectInv st p) (hp : 1 ≤ p)
    (v : Value) : DetectInv (detect_cell p st v) p := by
  unfold detect_cell
  by_cases hf : pyFalsy v = true
  · rwa [if_pos hf]
  · rw [if_neg hf]
    rcases hm : first_section_match (pyStrip (pyLower (pyStr v))) with _ | name
    · exact hinv
    · rcases hcur : st.current with _ | cur
      · have hsec : st.sections = [] := hinv.hnone hcur
        show DetectInv ⟨aset st.sections name (p, none), some name⟩ p
        rw [hsec]
        refine ⟨by simp [aset], ?_, by simp, by simp [aset, closedIntervals]⟩
        intro cur' hcur'
        have hce : cur' = name := by simpa using hcur'.symm
        subst hce
        exact ⟨p, by simp [aset, alookup], le_refl p, by simp [aset, closedIntervals]⟩
      · rcases hinv.hopen cur hcur with ⟨s, hlook, hsp, hlt⟩
        show DetectInv ⟨aset (match alookup st.sections cur with
          | some se => aset st.sections cur (se.1, some (p - 1))
          | none => st.sections) name (p, none), some name⟩ p
        rw [hlook]
        show DetectInv ⟨aset (aset st.sections cur (s, some (p - 1))) name (p, none),
          some name⟩ p
        rcases closed_aset_close hinv.nodup hlook (e := p - 1) with ⟨l₁, l₂, hcl, hcl'⟩
        have hnd₁ : ((aset st.sections cur (s, some (p - 1))).map Prod.fst).Nodup :=
          aset_keys_nodup hinv.nodup
        have hdisj₁ : List.Pairwise intervalsDisjoint
            (closedIntervals (aset st.sections cur (s, some (p - 1)))) := by
          rw [hcl']
          exact pairwise_insert_closed (hcl ▸ hinv.hdisj) (hcl ▸ hlt)
        have hlt₁ : ∀ ab ∈ closedIntervals (aset st.sections cur (s, some (p - 1))),
            ab.2 < p := by
          rw [hcl']
          intro ab hab
          rcases List.mem_append.mp hab with h | h
          · have := hlt ab (by rw [hcl]; exact List.mem_append.mpr (Or.inl h))
            omega
          · rcases List.mem_cons.mp h with h' | h'
            · subst h'
              omega
            · have := hlt ab (by rw [hcl]; exact List.mem_append.mpr (Or.inr h'))
              omega
        have hsub : (closedIntervals
            (aset (aset st.sections cur (s, some (p - 1))) name (p, none))).Sublist
            (closedIntervals (aset st.sections cur (s, some (p - 1)))) :=
          closed_aset_open_sublist
        refine ⟨aset_keys_nodup hnd₁, ?_, by simp, List.Pairwise.sublist hsub hdisj₁⟩
        intro cur' hcur'
        have hce : cur' = name := by simpa using hcur'.symm
        subst hce
        refine ⟨p, alookup_aset_self _ _ _, le_refl p, ?_⟩
        intro ab hab
        exact hlt₁ ab (hsub.subset hab)

theorem dinv_detect_row {g : Grid} {st : DetectState} {p : Nat}
    (hinv : DetectInv st p) (hp : 1 ≤ p) : DetectInv (detect_row g st p) p := by
  unfold detect_row
  exact foldl_inv (I := fun s => DetectInv s p)
    (fun s c hs => dinv_detect_cell hs hp (g.cell p c)) g.colsList st hinv

theorem dinv_rows {g : Grid} :
    ∀ (n a : Nat) (st : DetectState), 1 ≤ a → DetectInv st a →
      ∃ q, DetectInv ((List.range' a n).foldl (detect_row g) st) q := by
  intro n
  induction n with
  | zero => intro a st _ h; exact ⟨a, h⟩
  | succ n ih =>
    intro a st ha h
    rw [List.range'_succ, List.foldl_cons]
    exact ih (a + 1) (detect_row g st a) (by omega)
      (dinv_mono (dinv_detect_row h ha) (by omega))

theorem closed_eq_map_snd (m : List (String × Nat × Option Nat)) :
    closedIntervals m =
      (m.filterMap (fun e => e.2.2.map (fun en => (e.1, e.2.1, en)))).map Prod.snd := by
  induction m with
  | nil => rfl
  | cons e t ih =>
    rcases hv : e.2.2 with _ | en <;>
      simp_all [closedIntervals, List.filterMap_cons]

/-- C3 counterexample. On a grid whose rows read `bq` / `na` /
`bq  total`, `detect_sections` returns `BQ = (3, 2)` — an interval with
`end_row < start_row` — and the sections are not ordered by `start_row`
(starts 3, 2, 3): re-detecting a section keeps its original dict
position, and a second keyword cell in the same row closes the just
opened section at `row − 1`. -/
theorem c3_detect_sections_counterexample :
    detect_sections
        { maxRow := 3, maxCol := 2,
          cell := fun r c =>
            if r = 1 ∧ c = 1 then .str "bq"
            else if r = 2 ∧ c = 1 then .str "na"
            else if r = 3 ∧ c = 1 then .str "bq"
            else if r = 3 ∧ c = 2 then .str "total"
            else .null } = [("BQ", 3, 2), ("NA", 2, 2), ("COMBINED", 3, 3)] ∧
    ¬(∀ e ∈ detect_sections
        { maxRow := 3, maxCol := 2,
          cell := fun r c =>
            if r = 1 ∧ c = 1 then .str "bq"
            else if r = 2 ∧ c = 1 then .str "na"
            else if r = 3 ∧ c = 1 then .str "bq"
            else if r = 3 ∧ c = 2 then .str "total"
            else .null }, e.2.1 ≤ e.2.2) ∧
    ¬List.Pairwise (fun a b => a.2.1 ≤ b.2.1) (detect_sections
        { maxRow := 3, maxCol := 2,
          cell := fun r c =>
            if r = 1 ∧ c = 1 then .str "bq"
            else if r = 2 ∧ c = 1 then .str "na"
            else if r = 3 ∧ c = 1 then .str "bq"
            else if r = 3 ∧ c = 2 then .str "total"
            else .null }) := by
  refine ⟨?_, ?_, ?_⟩
  · with_unfolding_all rfl
  · with_unfolding_all decide
  · with_unfolding_all decide

/-- C3 (corrected: of the claim's three conjuncts only pairwise
disjointness holds unconditionally — `end_row ≥ start_row` and ordering
by `start_row` fail, see the counterexample).  For every grid the
intervals returned by `detect_sections` are pairwise disjoint as row
sets (an interval with `end_row < start_row` is empty). -/
theorem c3_detect_sections_disjoint (g : Grid) :
    List.Pairwise (fun a b => intervalsDisjoint a.2 b.2) (detect_sections g) := by
  have hscan : ∃ q, DetectInv (detect_scan g) q := by
    unfold detect_scan Grid.rowsList
    exact dinv_rows g.maxRow 1 ⟨[], none⟩ (le_refl 1) dinv_start
  rcases hscan with ⟨q, hinv⟩
  have hclosed : List.Pairwise intervalsDisjoint
      (closedIntervals (close_last g (detect_scan g))) := by
    unfold close_last
    rcases hcur : (detect_scan g).current with _ | cur
    · exact hinv.hdisj
    · rcases hinv.hopen cur hcur with ⟨s, hlook, _, hlt⟩
      show List.Pairwise intervalsDisjoint (closedIntervals
        (match alookup (detect_scan g).sections cur with
          | some (s, none) => aset (detect_scan g).sections cur (s, some g.maxRow)
          | _ => (detect_scan g).sections))
      rw [hlook]
      show List.Pairwise intervalsDisjoint (closedIntervals
        (aset (detect_scan g).sections cur (s, some g.maxRow)))
      rcases closed_aset_close hinv.nodup hlook (e := g.maxRow) with ⟨l₁, l₂, hcl, hcl'⟩
      rw [hcl']
      exact pairwise_insert_closed (hcl ▸ hinv.hdisj) (hcl ▸ hlt)
  rw [closed_eq_map_snd] at hclosed
  exact (List.pairwise_map.mp hclosed)

/-! ## C2: sections without headers -/

theorem no_headers_msg_inj {a b : String} (h : no_headers_msg a = no_headers_msg b) : a = b := by
  unfold no_headers_msg at h
  apply string_ext
  have hd := congrArg String.data h
  simp only [String.data_append, List.append_assoc] at hd
  have h1 := List.append_cancel_left hd
  exact List.append_cancel_right h1

theorem eq_of_mem_nodup_keys {α : Type} {l : List (String × α)}
    (hnd : (l.map Prod.fst).Nodup) {a b : String × α}
    (ha : a ∈ l) (hb : b ∈ l) (hab : a.1 = b.1) : a = b := by
  induction l with
  | nil => simp at ha
  | cons x t ih =>
    have hx := List.nodup_cons.mp (show (x.1 :: t.map Prod.fst).Nodup from hnd)
    rcases List.mem_cons.mp ha with ha' | ha' <;> rcases List.mem_cons.mp hb with hb' | hb'
    · rw [ha', hb']
    · exfalso
      apply hx.1
      have hx1 : x.1 = b.1 := by rw [← ha']; exact hab
      rw [hx1]
      exact List.mem_map.mpr ⟨b, hb', rfl⟩
    · exfalso
      apply hx.1
      have hx1 : x.1 = a.1 := by rw [← hb']; exact hab.symm
      rw [hx1]
      exact List.mem_map.mpr ⟨a, ha', rfl⟩
    · exact ih hx.2 ha' hb'

theorem filterMap_named_keys_sublist (m : List (String × Nat × Option Nat)) :
    (((m.filterMap (fun e => e.2.2.map (fun en => (e.1, e.2.1, en)))).map
      Prod.fst)).Sublist (m.map Prod.fst) := by
  induction m with
  | nil => simp
  | cons e t ih =>
    rcases hv : e.2.2 with _ | en
    · simp only [List.filterMap_cons, hv, Option.map_none, List.map_cons]
      exact ih.trans (List.sublist_cons_self _ _)
    · simp only [List.filterMap_cons, hv, Option.map_some, List.map_cons]
      exact List.Sublist.cons₂ _ ih

theorem detect_sections_names_nodup (g : Grid) :
    ((detect_sections g).map Prod.fst).Nodup := by
  rcases dinv_rows g.maxRow 1 ⟨[], none⟩ (le_refl 1) dinv_start with ⟨q, hinv⟩
  have hscan : DetectInv (detect_scan g) q := hinv
  have hclose : ((close_last g (detect_scan g)).map Prod.fst).Nodup := by
    unfold close_last
    rcases hcur : (detect_scan g).current with _ | cur
    · exact hscan.nodup
    · rcases hscan.hopen cur hcur with ⟨s, hlook, _, _⟩
      show ((match alookup (detect_scan g).sections cur with
        | some (s, none) => aset (detect_scan g).sections cur (s, some g.maxRow)
        | _ => (detect_scan g).sections).map Prod.fst).Nodup
      rw [hlook]
      exact aset_keys_nodup hscan.nodup
  exact (filterMap_named_keys_sublist _).nodup hclose

theorem parse_fold_errors (g : Grid) :
    ∀ (secs : List (String × Nat × Nat)) (acc : ParseAcc),
      (secs.foldl (parse_section_step g) acc).parsing_errors =
        acc.parsing_errors ++
          (secs.filter (fun e => (detect_headers g e.2.1 e.2.2).isEmpty)).map
            (fun e => no_headers_msg e.1) := by
  intro secs
  induction secs with
  | nil => intro acc; simp
  | cons e t ih =>
    intro acc
    rw [List.foldl_cons, ih]
    by_cases hh : (detect_headers g e.2.1 e.2.2).isEmpty = true
    · simp only [parse_section_step, hh, if_true, List.filter_cons, List.map_cons]
      simp [List.append_assoc]
    · simp only [parse_section_step, hh, Bool.false_eq_true, if_false, List.filter_cons]
      by_cases hd : e.2.1 + 3 ≤ e.2.2 <;> simp [hd, hh]

theorem parse_fold_lookup_none (g : Grid) {n : String} :
    ∀ (secs : List (String × Nat × Nat)) (acc : ParseAcc),
      (∀ e ∈ secs, e.1 = n → (detect_headers g e.2.1 e.2.2).isEmpty = true) →
      alookup acc.parsed_sections n = none →
      alookup (secs.foldl (parse_section_step g) acc).parsed_sections n = none := by
  intro secs
  induction secs with
  | nil => intro acc _ h; exact h
  | cons e t ih =>
    intro acc hall hacc
    rw [List.foldl_cons]
    refine ih _ (fun e' he' => hall e' (List.mem_cons.mpr (Or.inr he'))) ?_
    by_cases hh : (detect_headers g e.2.1 e.2.2).isEmpty = true
    · simpa [parse_section_step, hh] using hacc
    · have hne : e.1 ≠ n := fun heq =>
        hh (hall e (List.mem_cons.mpr (Or.inl rfl)) heq)
      by_cases hd : e.2.1 + 3 ≤ e.2.2 <;>
        simpa [parse_section_step, hh, hd, alookup_aset_ne _ _ _ _ hne] using hacc

theorem parse_fold_lookup_some (g : Grid) {n : String} :
    ∀ (secs : List (String × Nat × Nat)) (acc : ParseAcc),
      (∃ r, alookup acc.parsed_sections n = some r) →
      ∃ r, alookup (secs.foldl (parse_section_step g) acc).parsed_sections n = some r := by
  intro secs
  induction secs with
  | nil => intro acc h; exact h
  | cons e t ih =>
    intro acc hacc
    rw [List.foldl_cons]
    refine ih _ ?_
    by_cases hh : (detect_headers g e.2.1 e.2.2).isEmpty = true
    · simpa [parse_section_step, hh] using hacc
    · by_cases hk : e.1 = n
      · subst hk
        by_cases hd : e.2.1 + 3 ≤ e.2.2
        · exact ⟨extract_data_rows g (e.2.1 + 3) e.2.2 (detect_headers g e.2.1 e.2.2),
            by simp [parse_section_step, hh, hd, alookup_aset_self]⟩
        · exact ⟨[], by simp [parse_section_step, hh, hd, alookup_aset_self]⟩
      · by_cases hd : e.2.1 + 3 ≤ e.2.2 <;>
          simpa [parse_section_step, hh, hd, alookup_aset_ne _ _ _ _ hk] using hacc

theorem parse_fold_lookup_mem (g : Grid) {n : String} :
    ∀ (secs : List (String × Nat × Nat)) (acc : ParseAcc) (s e : Nat),
      (n, s, e) ∈ secs → detect_headers g s e ≠ [] →
      ∃ r, alookup (secs.foldl (parse_section_step g) acc).parsed_sections n = some r := by
  intro secs
  induction secs with
  | nil => intro acc s e h; simp at h
  | cons e t ih =>
    intro acc s en hmem hne
    rcases List.mem_cons.mp hmem with h | h
    · subst h
      rw [List.foldl_cons]
      apply parse_fold_lookup_some
      have hh : (detect_headers g s en).isEmpty = false := by
        simpa [List.isEmpty_iff] using hne
      by_cases hd : s + 3 ≤ en
      · exact ⟨extract_data_rows g (s + 3) en (detect_headers g s en),
          by simp [parse_section_step, hh, hd, alookup_aset_self]⟩
      · exact ⟨[], by simp [parse_section_step, hh, hd, alookup_aset_self]⟩
    · rw [List.foldl_cons]
      exact ih _ s en h hne

theorem count_map_no_headers_msg {n : String} :
    ∀ (l : List (String × Nat × Nat)),
      (l.map (fun e => no_headers_msg e.1)).count (no_headers_msg n) =
        (l.map Prod.fst).count n := by
  intro l
  induction l with
  | nil => rfl
  | cons e t ih =>
    simp only [List.map_cons, List.count_cons, ih]
    by_cases h : e.1 = n
    · simp [h]
    · have : ¬no_headers_msg e.1 = no_headers_msg n := fun hc => h (no_headers_msg_inj hc)
      simp [h, this]

/-- C2 counterexample. On a 1×2 grid whose single row reads `bq  na`,
section `BQ` gets the degenerate interval `(1, 0)`, its header map is
empty, and `parse_excel_file` does not add `BQ` to the sections map at
all (the claim says it is present with zero records); the error message
is recorded and `NA` is still parsed. -/
theorem c2_parse_counterexample :
    alookup (parse_excel_file
        { maxRow := 1, maxCol := 2,
          cell := fun r c =>
            if r = 1 ∧ c = 1 then .str "bq"
            else if r = 1 ∧ c = 2 then .str "na"
            else .null }).sections "BQ" = none ∧
    (parse_excel_file
        { maxRow := 1, maxCol := 2,
          cell := fun r c =>
            if r = 1 ∧ c = 1 then .str "bq"
            else if r = 1 ∧ c = 2 then .str "na"
            else .null }).parsing_errors = [no_headers_msg "BQ"] ∧
    alookup (parse_excel_file
        { maxRow := 1, maxCol := 2,
          cell := fun r c =>
            if r = 1 ∧ c = 1 then .str "bq"
            else if r = 1 ∧ c = 2 then .str "na"
            else .null }).sections "NA" = some [] := by
  refine ⟨?_, ?_, ?_⟩ <;> with_unfolding_all rfl

/-- C2 (corrected: a detected section with an empty header map is
omitted from the sections map — `continue` skips the assignment — rather
than included with zero records).  Exactly one parse error names the
section, and parsing continues: every other detected section with a
non-empty header map appears in the sections map. -/
theorem c2_parse_skips_headerless_section (g : Grid) (n : String) (s e : Nat)
    (hmem : (n, s, e) ∈ detect_sections g)
    (hempty : detect_headers g s e = []) :
    alookup (parse_excel_file g).sections n = none ∧
    (parse_excel_file g).parsing_errors.count (no_headers_msg n) = 1 ∧
    (∀ n' s' e', (n', s', e') ∈ detect_sections g → detect_headers g s' e' ≠ [] →
      ∃ recs, alookup (parse_excel_file g).sections n' = some recs) := by
  have hnd := detect_sections_names_nodup g
  have hsec : (parse_excel_file g).sections =
      ((detect_sections g).foldl (parse_section_step g) ⟨[], [], [], 0⟩).parsed_sections := by
    simp [parse_excel_file]
  have herr : (parse_excel_file g).parsing_errors =
      ((detect_sections g).foldl (parse_section_step g) ⟨[], [], [], 0⟩).parsing_errors := by
    simp [parse_excel_file]
  refine ⟨?_, ?_, ?_⟩
  · rw [hsec]
    apply parse_fold_lookup_none g _ _ ?_ (by simp [alookup])
    intro e' he' hn'
    have : e' = (n, s, e) :=
      eq_of_mem_nodup_keys hnd he' hmem hn'
    rw [this]
    simp [hempty]
  · rw [herr, parse_fold_errors]
    simp only [List.nil_append]
    rw [count_map_no_headers_msg]
    apply List.count_eq_one_of_mem
    · exact ((List.filter_sublist _).map Prod.fst).nodup hnd
    · apply List.mem_map.mpr
      refine ⟨(n, s, e), List.mem_filter.mpr ⟨hmem, ?_⟩, rfl⟩
      simp [hempty]
  · intro n' s' e' hmem' hne'
    rw [hsec]
    exact parse_fold_lookup_mem g _ _ s' e' hmem' hne'

/-- Witness for C2 on the concrete 1×2 grid: `BQ` (empty headers) is
omitted with one recorded message, `NA` is still parsed. -/
theorem c2_parse_skips_headerless_witness :
    alookup (parse_excel_file
        { maxRow := 1, maxCol := 2,
          cell := fun r c =>
            if r = 1 ∧ c = 1 then .str "bq"
            else if r = 1 ∧ c = 2 then .str "na"
            else .null }).sections "BQ" = none ∧
    (parse_excel_file
        { maxRow := 1, maxCol := 2,
          cell := fun r c =>
            if r = 1 ∧ c = 1 then .str "bq"
            else if r = 1 ∧ c = 2 then .str "na"
            else .null }).parsing_errors.count (no_headers_msg "BQ") = 1 ∧
    (∃ recs, alookup (parse_excel_file
        { maxRow := 1, maxCol := 2,
          cell := fun r c =>
            if r = 1 ∧ c = 1 then .str "bq"
            else if r = 1 ∧ c = 2 then .str "na"
            else .null }).sections "NA" = some recs) := by
  have h := c2_parse_skips_headerless_section
    { maxRow := 1, maxCol := 2,
      cell := fun r c =>
        if r = 1 ∧ c = 1 then .str "bq"
        else if r = 1 ∧ c = 2 then .str "na"
        else .null } "BQ" 1 0
    (by with_unfolding_all decide) (by with_unfolding_all rfl)
  exact ⟨h.1, h.2.1,
    h.2.2 "NA" 1 1 (by with_unfolding_all decide) (by with_unfolding_all decide)⟩

end FragTest
